import Mathlib

/-!
E-commerce backend (gin + gorm): users, products, image uploads.

Shallow embedding of the Go sources

* `models/user.go`, `models/product.go`
* `utils/upload.go`
* `controllers/user_controller.go`, `controllers/product_controller.go`
* `routes/routes.go`

Handlers are functions from a request and a `World` (database tables, files on
disk, and the list of effects performed so far) to a response and a new
`World`.  Everything the handlers cannot decide themselves is explicit input:
third-party pure functions (`Lib`: bcrypt, the `email` validator) and the
per-request environment (`Env`: clock, uuid, salt, token issuing, I/O failures,
the directories on disk that hold no stored file).

Conventions: `uint` is `Nat`, `int` is `Int`, `time.Time` is a `Nat` instant
whose zero value is `0`, a Go `error` is `Option String` (`none` is `nil`), and
`float64` prices are rationals: the handlers only compare them with `0` and
copy them, and JSON cannot carry NaN or infinities.
-/

namespace Backend

/-! ## models -/

/-- The struct `models.User`. -/
structure User where
  ID : Nat
  Name : String
  Email : String
  Password : String
  ImagePath : String
  CreatedAt : Nat
  UpdatedAt : Nat
deriving DecidableEq, Repr

/-- The struct `models.UserResponse`: what is sent back to the client. -/
structure UserResponse where
  ID : Nat
  Name : String
  Email : String
  ImagePath : String
  CreatedAt : Nat
  UpdatedAt : Nat
deriving DecidableEq, Repr

/-- The struct `models.Product`. -/
structure Product where
  ID : Nat
  Name : String
  Description : String
  Price : ℚ
  Quantity : Int
  ImagePath : String
  CreatedAt : Nat
  UpdatedAt : Nat
deriving DecidableEq

/-- The struct `models.ProductResponse`. -/
structure ProductResponse where
  ID : Nat
  Name : String
  Description : String
  Price : ℚ
  Quantity : Int
  ImagePath : String
  CreatedAt : Nat
  UpdatedAt : Nat
deriving DecidableEq

/-- A Go `error`: `none` is `nil`, `some msg` an error with that message. -/
abbrev Error := Option String

/-- Third-party pure functions the models and handlers call. -/
structure Lib where
  /-- The call `bcrypt.GenerateFromPassword(password, bcrypt.DefaultCost)`; the first
  argument is the random salt the library draws. -/
  GenerateFromPassword : Nat → String → Except String String
  /-- The call `bcrypt.CompareHashAndPassword(hashedPassword, password)`. -/
  CompareHashAndPassword : String → String → Error
  /-- The `email` tag of the binding validator. -/
  isEmail : String → Bool

/-- What one request draws from outside the program. -/
structure Env where
  /-- The clock gorm reads for `CreatedAt` / `UpdatedAt`. -/
  now : Nat
  /-- The salt bcrypt draws. -/
  salt : Nat
  /-- The value of `uuid.New().String()`. -/
  uuid : String
  /-- The function `middleware.GenerateJWT`. -/
  GenerateJWT : Nat → Except String String
  /-- The INSERT of `DB.Create` fails in the driver. -/
  createFails : Bool
  /-- The UPDATE of `DB.Save` fails in the driver. -/
  saveFails : Bool
  /-- The DELETE of `DB.Delete` fails in the driver. -/
  deleteFails : Bool
  /-- The call `os.MkdirAll` fails. -/
  mkdirFails : Bool
  /-- The call `c.SaveUploadedFile` fails. -/
  saveFileFails : Bool
  /-- The call `os.Remove` fails for a reason outside the model (permissions, I/O). -/
  removeFails : Bool
  /-- The directories on disk that hold no stored file (such as the ones `main`
  creates at start), by cleaned path from the working directory. -/
  dirs : List String

/-- The method `User.ToResponse` (models/user.go). -/
def User.ToResponse (u : User) : UserResponse :=
  { ID := u.ID
    Name := u.Name
    Email := u.Email
    ImagePath := u.ImagePath
    CreatedAt := u.CreatedAt
    UpdatedAt := u.UpdatedAt }

/-- The method `Product.ToResponse` (models/product.go). -/
def Product.ToResponse (p : Product) : ProductResponse :=
  { ID := p.ID
    Name := p.Name
    Description := p.Description
    Price := p.Price
    Quantity := p.Quantity
    ImagePath := p.ImagePath
    CreatedAt := p.CreatedAt
    UpdatedAt := p.UpdatedAt }

/-- The method `User.BeforeCreate`: the gorm hook that replaces the password by its
bcrypt digest, or returns bcrypt's error. -/
def User.BeforeCreate (lib : Lib) (env : Env) (u : User) : Except String User :=
  match lib.GenerateFromPassword env.salt u.Password with
  | .error err => .error err
  | .ok hashedPassword => .ok { u with Password := hashedPassword }

/-- The method `User.ComparePassword`: `err == nil` of bcrypt's comparison. -/
def User.ComparePassword (lib : Lib) (u : User) (password : String) : Bool :=
  (lib.CompareHashAndPassword u.Password password).isNone

/-- The method `Product.BeforeCreate`: the hook does nothing and returns `nil`. -/
def Product.BeforeCreate (p : Product) : Except String Product := .ok p

/-! ## Go standard library functions the sources call -/

/-- The call `strings.TrimPrefix(s, "/")`: `s` without one leading slash. -/
def trimLeadingSlash (s : String) : String :=
  match s.data with
  | '/' :: rest => String.mk rest
  | _ => s

/-- Accumulates a base-10 value below `2^32`, failing on a non-digit or on
overflow. -/
def parseDigits : List Char → Nat → Option Nat
  | [], acc => some acc
  | c :: cs, acc =>
    if c.isDigit then
      let v := acc * 10 + (c.toNat - '0'.toNat)
      if v < 2 ^ 32 then parseDigits cs v else none
    else none

/-- The call `strconv.ParseUint(s, 10, 32)`: `none` stands for a returned error. -/
def ParseUint (s : String) : Option Nat :=
  match s.data with
  | [] => none
  | cs => parseDigits cs 0

/-- Scan of `filepath.Ext` over the reversed name: `acc` holds the characters
already passed, in their original order. -/
def extScan : List Char → List Char → List Char
  | [], _ => []
  | c :: rest, acc =>
    if c = '/' then []
    else if c = '.' then c :: acc
    else extScan rest (c :: acc)

/-- The call `filepath.Ext(path)`: the suffix starting at the last dot of the last
path element, or the empty string. -/
def filepathExt (path : String) : String :=
  String.mk (extScan path.data.reverse [])

/-- Splits at every slash (no element is dropped). -/
def splitSlash : List Char → List (List Char)
  | [] => [[]]
  | c :: cs =>
    if c = '/' then [] :: splitSlash cs
    else
      match splitSlash cs with
      | [] => [[c]]
      | e :: es => (c :: e) :: es

/-- One step of `filepath.Clean` over the elements kept so far (most recent
first): empty and `.` elements vanish, `..` cancels the element before it,
and cannot climb above the root of a rooted path. -/
def cleanStep (rooted : Bool) (kept : List (List Char)) (e : List Char) :
    List (List Char) :=
  if e = [] ∨ e = ['.'] then kept
  else if e = ['.', '.'] then
    match kept with
    | [] => if rooted then [] else [e]
    | k :: ks => if k = ['.', '.'] then e :: kept else ks
  else e :: kept

/-- The call `filepath.Clean(path)` for slash-separated paths. -/
def filepathClean (path : String) : String :=
  let rooted := path.data.head? = some '/'
  let kept := ((splitSlash path.data).foldl (cleanStep rooted) []).reverse
  let body := String.mk (List.intercalate ['/'] kept)
  if rooted then "/" ++ body
  else if kept = [] then "." else body

/-- The call `filepath.Join(a, b)`: the non-empty elements joined by a slash, cleaned;
the empty string when both are empty. -/
def filepathJoin (a b : String) : String :=
  if a = "" ∧ b = "" then ""
  else if a = "" then filepathClean b
  else if b = "" then filepathClean a
  else filepathClean (a ++ "/" ++ b)

/-- An uploaded multipart file (`multipart.FileHeader`), as far as the
sources read it. -/
structure FileHeader where
  Filename : String
  /-- The part header, a map from canonical key to values. -/
  Header : List (String × List String)
deriving DecidableEq, Repr

/-- The call `Header.Get(key)` for a canonical key: the first value, or `""`. -/
def FileHeader.Get (file : FileHeader) (key : String) : String :=
  match file.Header.lookup key with
  | some (v :: _) => v
  | _ => ""

/-! ## The world the handlers act on -/

/-- An effect performed by a handler, in the order of the source: database
statements carry the struct the handler passed, file operations their
arguments. -/
inductive Event where
  | selectUsers
  | createUser (u : User)
  | saveUser (u : User)
  | deleteUser (u : User)
  | selectProducts
  | createProduct (p : Product)
  | saveProduct (p : Product)
  | deleteProduct (p : Product)
  | DeleteFile (filePath : String)
  | UploadFile (file : FileHeader) (folder : String)
deriving DecidableEq

/-- The database (two tables with their id sequences), the regular files on
disk under the working directory (by path relative to it, as `UploadFile`
writes them) and the effects performed so far, oldest first.  A SELECT is a
lookup in the table, which finds rows or reports not-found; driver and I/O
failures are modelled for the writes (INSERT, UPDATE, DELETE) and for the
file system calls, through `Env`.  The directories above a stored file exist
with it; the other directories are given per request by `Env.dirs`. -/
structure World where
  users : List User
  userSeq : Nat
  products : List Product
  productSeq : Nat
  files : List String
  trace : List Event

/-- Records an effect. -/
def World.log (w : World) (e : Event) : World :=
  { w with trace := w.trace ++ [e] }

/-- The row gorm's `First` returns: `ORDER BY id LIMIT 1`, the row with the
least primary key (the earliest such row if the key repeats). -/
def First {α : Type} (key : α → Nat) : List α → Option α
  | [] => none
  | r :: rs =>
    match First key rs with
    | none => some r
    | some m => if key m < key r then some m else some r

/-- The schema constraints of the two tables: primary keys are non-zero and
unique, and user emails are unique (`gorm:"unique"`). -/
def World.wf (w : World) : Prop :=
  (∀ u ∈ w.users, u.ID ≠ 0) ∧ (w.users.map User.ID).Nodup ∧
  (w.users.map User.Email).Nodup ∧
  (∀ p ∈ w.products, p.ID ≠ 0) ∧ (w.products.map Product.ID).Nodup

/-! ## gorm statements on the `users` table -/

/-- The call `DB.First(&user, id)`: `none` is `ErrRecordNotFound`. -/
def DB.FirstUser (id : Nat) (w : World) : Option User × World :=
  (First User.ID (w.users.filter (fun r => r.ID == id)), w.log .selectUsers)

/-- The call `DB.Where("email = ?", email).First(&user)`. -/
def DB.FirstUserByEmail (email : String) (w : World) : Option User × World :=
  (First User.ID (w.users.filter (fun r => r.Email == email)), w.log .selectUsers)

/-- The call `DB.Find(&users)`: every row. -/
def DB.FindUsers (w : World) : List User × World :=
  (w.users, w.log .selectUsers)

/-- The INSERT behind `DB.Create(&user)`, after the hooks: gorm stamps zero
`CreatedAt` / `UpdatedAt`, a zero primary key is drawn from the sequence, and
the primary-key and unique-email constraints are enforced. -/
def DB.insertUser (env : Env) (u : User) (w : World) : Except String User × World :=
  let u := { u with CreatedAt := if u.CreatedAt = 0 then env.now else u.CreatedAt
                    UpdatedAt := if u.UpdatedAt = 0 then env.now else u.UpdatedAt }
  if env.createFails then (.error "insert failed", w)
  else
    let w := if u.ID = 0 then { w with userSeq := w.userSeq + 1 } else w
    let u := if u.ID = 0 then { u with ID := w.userSeq } else u
    if w.users.any (fun r => r.ID == u.ID) then
      (.error "duplicate key value violates unique constraint users_pkey", w)
    else if w.users.any (fun r => r.Email == u.Email) then
      (.error "duplicate key value violates unique constraint users_email_key", w)
    else (.ok u, { w with users := w.users ++ [u] })

/-- The call `DB.Create(&user)`: the `BeforeCreate` hook, then the INSERT. -/
def DB.CreateUser (lib : Lib) (env : Env) (user : User) (w : World) :
    Except String User × World :=
  let w := w.log (.createUser user)
  match user.BeforeCreate lib env with
  | .error err => (.error err, w)
  | .ok u => DB.insertUser env u w

/-- The part of gorm's `Statement` that `Changed` reads: the model the
statement is about and the value being written. -/
structure Statement where
  Model : User
  Dest : User

/-- The call `Statement.Changed(field)`: for a selected column, whether the value
being written differs from the model's. -/
def Statement.Changed (stmt : Statement) (field : String) : Bool :=
  if field = "ID" then stmt.Dest.ID != stmt.Model.ID
  else if field = "Name" then stmt.Dest.Name != stmt.Model.Name
  else if field = "Email" then stmt.Dest.Email != stmt.Model.Email
  else if field = "Password" then stmt.Dest.Password != stmt.Model.Password
  else if field = "ImagePath" then stmt.Dest.ImagePath != stmt.Model.ImagePath
  else if field = "CreatedAt" then stmt.Dest.CreatedAt != stmt.Model.CreatedAt
  else if field = "UpdatedAt" then stmt.Dest.UpdatedAt != stmt.Model.UpdatedAt
  else false

/-- The method `User.BeforeUpdate`: hashes the password if the statement reports the
`Password` field as changed. -/
def User.BeforeUpdate (lib : Lib) (env : Env) (tx : Statement) (u : User) :
    Except String User :=
  if tx.Changed "Password" then
    match lib.GenerateFromPassword env.salt u.Password with
    | .error err => .error err
    | .ok hashedPassword => .ok { u with Password := hashedPassword }
  else .ok u

/-- The call `DB.Save(&user)`.  With a zero primary key gorm runs the create
callbacks.  Otherwise `Save` sets `Statement.Dest` to the struct and the model
defaults to the same struct, the `BeforeUpdate` hook runs, `UpdatedAt` is
stamped and every column of the rows with that key is written; when the
UPDATE touches no row the struct is inserted instead, without hooks. -/
def DB.SaveUser (lib : Lib) (env : Env) (user : User) (w : World) :
    Except String User × World :=
  let w := w.log (.saveUser user)
  if user.ID = 0 then
    match user.BeforeCreate lib env with
    | .error err => (.error err, w)
    | .ok u => DB.insertUser env u w
  else
    match user.BeforeUpdate lib env { Model := user, Dest := user } with
    | .error err => (.error err, w)
    | .ok u =>
      let u := { u with UpdatedAt := env.now }
      if env.saveFails then (.error "update failed", w)
      else if w.users.any (fun r => r.ID != u.ID && r.Email == u.Email) then
        (.error "duplicate key value violates unique constraint users_email_key", w)
      else if w.users.any (fun r => r.ID == u.ID) then
        (.ok u, { w with users := w.users.map (fun r => if r.ID = u.ID then u else r) })
      else DB.insertUser env u w

/-- The call `DB.Delete(&user)`: deletes the rows with the struct's primary key;
without one gorm refuses (`ErrMissingWhereClause`). -/
def DB.DeleteUser (env : Env) (user : User) (w : World) : Error × World :=
  let w := w.log (.deleteUser user)
  if user.ID = 0 then (some "WHERE conditions required", w)
  else if env.deleteFails then (some "delete failed", w)
  else (none, { w with users := w.users.filter (fun r => r.ID != user.ID) })

/-! ## gorm statements on the `products` table -/

/-- The call `DB.First(&product, id)`: `none` is `ErrRecordNotFound`. -/
def DB.FirstProduct (id : Nat) (w : World) : Option Product × World :=
  (First Product.ID (w.products.filter (fun r => r.ID == id)), w.log .selectProducts)

/-- The call `DB.Find(&products)`: every row. -/
def DB.FindProducts (w : World) : List Product × World :=
  (w.products, w.log .selectProducts)

/-- The INSERT behind `DB.Create(&product)`, after the hook. -/
def DB.insertProduct (env : Env) (p : Product) (w : World) :
    Except String Product × World :=
  let p := { p with CreatedAt := if p.CreatedAt = 0 then env.now else p.CreatedAt
                    UpdatedAt := if p.UpdatedAt = 0 then env.now else p.UpdatedAt }
  if env.createFails then (.error "insert failed", w)
  else
    let w := if p.ID = 0 then { w with productSeq := w.productSeq + 1 } else w
    let p := if p.ID = 0 then { p with ID := w.productSeq } else p
    if w.products.any (fun r => r.ID == p.ID) then
      (.error "duplicate key value violates unique constraint products_pkey", w)
    else (.ok p, { w with products := w.products ++ [p] })

/-- The call `DB.Create(&product)`: the `BeforeCreate` hook, then the INSERT. -/
def DB.CreateProduct (env : Env) (product : Product) (w : World) :
    Except String Product × World :=
  let w := w.log (.createProduct product)
  match product.BeforeCreate with
  | .error err => (.error err, w)
  | .ok p => DB.insertProduct env p w

/-- The call `DB.Save(&product)`: as for users; `Product` has no update hook. -/
def DB.SaveProduct (env : Env) (product : Product) (w : World) :
    Except String Product × World :=
  let w := w.log (.saveProduct product)
  if product.ID = 0 then
    match product.BeforeCreate with
    | .error err => (.error err, w)
    | .ok p => DB.insertProduct env p w
  else
    let p := { product with UpdatedAt := env.now }
    if env.saveFails then (.error "update failed", w)
    else if w.products.any (fun r => r.ID == p.ID) then
      (.ok p, { w with products := w.products.map (fun r => if r.ID = p.ID then p else r) })
    else DB.insertProduct env p w

/-- The call `DB.Delete(&product)`. -/
def DB.DeleteProduct (env : Env) (product : Product) (w : World) : Error × World :=
  let w := w.log (.deleteProduct product)
  if product.ID = 0 then (some "WHERE conditions required", w)
  else if env.deleteFails then (some "delete failed", w)
  else (none, { w with products := w.products.filter (fun r => r.ID != product.ID) })

/-! ## utils/upload.go -/

/-- The function `utils.ValidateFileType`: `nil` as soon as the declared content type
equals an allowed type, otherwise an error naming the type. -/
def ValidateFileType (file : FileHeader) (allowedTypes : List String) : Error :=
  let contentType := file.Get "Content-Type"
  let rec loop : List String → Error
    | [] => some ("invalid file type: " ++ contentType)
    | allowedType :: rest => if contentType = allowedType then none else loop rest
  loop allowedTypes

/-- What a path names once the kernel has resolved it. -/
inductive Node where
  /-- The directory reached by `names` below the working directory (the working
  directory itself when there are none). -/
  | dir (names : List (List Char))
  /-- A directory above the working directory, the root included. -/
  | above
  /-- Something named outside the working directory: nothing is known of it. -/
  | outside
  /-- The regular file stored under `entry`. -/
  | file (entry : String)
  /-- Nothing: the lookup fails with ENOENT. -/
  | notExist
  /-- The path goes on after a regular file: the lookup fails with ENOTDIR. -/
  | notDir
deriving DecidableEq

/-- The path that leads to `names` from the working directory. -/
def pathOf (names : List (List Char)) : String :=
  String.mk (List.intercalate ['/'] names)

/-- The path `f` lies below the directory `d`. -/
def under (d f : String) : Bool :=
  (d.data ++ ['/']).isPrefixOf f.data

/-- Something lies below the directory `d`: a stored file or another directory. -/
def holds (dirs files : List String) (d : String) : Bool :=
  files.any (under d) || dirs.any (under d)

/-- There is a directory at `names`: one of `dirs`, or one that holds something. -/
def isDir (dirs files : List String) (names : List (List Char)) : Bool :=
  decide (pathOf names ∈ dirs) || holds dirs files (pathOf names)

/-- One element of a path, looked up from where the elements before it led:
empty and `.` elements stay, `..` goes to the parent, a name goes to the
stored file or the directory of that name. -/
def lookupStep (dirs files : List String) (cur : Node) (e : List Char) : Node :=
  match cur with
  | .dir names =>
    if e = [] ∨ e = ['.'] then .dir names
    else if e = ['.', '.'] then
      match names with
      | [] => .above
      | _ => .dir names.dropLast
    else if pathOf (names ++ [e]) ∈ files then .file (pathOf (names ++ [e]))
    else if isDir dirs files (names ++ [e]) then .dir (names ++ [e])
    else .notExist
  | .above => if e = [] ∨ e = ['.'] ∨ e = ['.', '.'] then .above else .outside
  | .outside => .outside
  | .file _ => .notDir
  | .notExist => .notExist
  | .notDir => .notDir

/-- What `name` resolves to.  `files` holds each regular file by the path it
was written under, so a path found there as it stands names that file; any
other spelling is walked element by element, from the root for a rooted
path.  The empty path names nothing. -/
def lookup (dirs files : List String) (name : String) : Node :=
  if name ∈ files then .file name
  else if name = "" then .notExist
  else
    (splitSlash name.data).foldl (lookupStep dirs files)
      (if name.data.head? = some '/' then .above else .dir [])

/-- The last element of the path that is not empty is `.` or `..`: the system call
`rmdir` refuses such a path. -/
def endsInDot (name : String) : Bool :=
  match ((splitSlash name.data).filter (fun e => e ≠ [])).getLast? with
  | some e => decide (e = ['.'] ∨ e = ['.', '.'])
  | none => false

/-- The text of the `PathError` that `os.Remove` returns. -/
def removeError (name cause : String) : String :=
  "remove " ++ name ++ ": " ++ cause

/-- The call `os.Remove(name)`: unlinks a regular file or removes an empty directory;
it fails on a directory that holds something, on the working directory and
above, and on a path that does not resolve.  Of what lies outside the working
directory only the outcome is drawn from `Env`.  No caller reads the text of
the error. -/
def osRemove (env : Env) (name : String) (w : World) : Error × World :=
  match lookup env.dirs w.files name with
  | .file entry =>
    if env.removeFails then (some (removeError name "operation not permitted"), w)
    else (none, { w with files := w.files.filter (fun f => f ≠ entry) })
  | .dir names =>
    if names = [] ∨ endsInDot name = true then
      (some (removeError name "invalid argument"), w)
    else if holds env.dirs w.files (pathOf names) then
      (some (removeError name "directory not empty"), w)
    else if env.removeFails then (some (removeError name "operation not permitted"), w)
    else (none, w)
  | .above => (some (removeError name "directory not empty"), w)
  | .outside =>
    if env.removeFails then (some (removeError name "operation not permitted"), w)
    else (none, w)
  | .notDir => (some (removeError name "not a directory"), w)
  | .notExist => (some (removeError name "no such file or directory"), w)

/-- The function `utils.DeleteFile`: drops one leading slash, returns `nil` when `os.Stat`
reports that nothing is there (`os.IsNotExist`), and otherwise returns what
`os.Remove` returns. -/
def DeleteFile (env : Env) (filePath : String) (w : World) : Error × World :=
  let w := w.log (.DeleteFile filePath)
  let cleanPath := trimLeadingSlash filePath
  if lookup env.dirs w.files cleanPath = .notExist then (none, w)
  else osRemove env cleanPath w

/-- The function `utils.UploadFile`: writes the file under `uploads/<folder>` with the name
`<uuid><ext>` and returns that path with a leading slash. -/
def UploadFile (env : Env) (file : FileHeader) (folder : String) (w : World) :
    Except String String × World :=
  let w := w.log (.UploadFile file folder)
  let ext := filepathExt file.Filename
  let filename := env.uuid ++ ext
  let dirPath := filepathJoin "uploads" folder
  if env.mkdirFails then (.error "failed to create directory", w)
  else
    let filePath := filepathJoin dirPath filename
    if env.saveFileFails then (.error "failed to save file", w)
    else
      (.ok ("/" ++ filePath),
        { w with files := if filePath ∈ w.files then w.files else w.files ++ [filePath] })

/-! ## HTTP responses -/

/-- A value placed in a `gin.H` body. -/
inductive Value where
  | str (s : String)
  | user (u : User)
  | userResponse (r : UserResponse)
  | userResponses (rs : List UserResponse)
  | product (p : Product)
  | productResponse (r : ProductResponse)
  | productResponses (rs : List ProductResponse)
deriving DecidableEq

/-- What `c.JSON(status, gin.H ...)` sends. -/
structure Response where
  status : Nat
  body : List (String × Value)
deriving DecidableEq

/-- The call `c.JSON(status, gin.H ("error": msg))`. -/
def errorJSON (status : Nat) (msg : String) : Response :=
  { status := status, body := [("error", .str msg)] }

abbrev StatusOK : Nat := 200
abbrev StatusCreated : Nat := 201
abbrev StatusBadRequest : Nat := 400
abbrev StatusUnauthorized : Nat := 401
abbrev StatusNotFound : Nat := 404
abbrev StatusInternalServerError : Nat := 500

/-! ## Requests -/

/-- The part of `gin.Context` the handlers read besides the JSON body. -/
structure Context where
  /-- The call `c.Get("userId")`: set by the auth middleware, `none` when absent. -/
  userId : Option Nat
  /-- The call `c.Param("id")`. -/
  id : String
  /-- The call `c.FormFile("image")`: `none` when it returns an error. -/
  image : Option FileHeader

/-- The text of one `validator.FieldError`: the namespace of the field, its
name and the tag that failed. -/
def fieldError (ns field tag : String) : String :=
  "Key: '" ++ ns ++ "' Error:Field validation for '" ++ field ++ "' failed on the '" ++ tag
    ++ "' tag"

/-- The error `validator.ValidationErrors` of a struct: `nil` when no field failed,
otherwise the field errors, one per failed field in field order, on a line
each. -/
def validationErrors (errs : List String) : Error :=
  match errs with
  | [] => none
  | _ => some (String.intercalate "\n" errs)

/-- The binding tags of `models.User`: `Name` required, `Email`
required and `email`, `Password` required and `min=6` (counted in runes).
Every field is checked, and reports the first of its tags that fails. -/
def User.binding (lib : Lib) (u : User) : Error :=
  validationErrors
    ((if u.Name = "" then [fieldError "User.Name" "Name" "required"] else []) ++
     (if u.Email = "" then [fieldError "User.Email" "Email" "required"]
      else if lib.isEmail u.Email = false then [fieldError "User.Email" "Email" "email"]
      else []) ++
     (if u.Password = "" then [fieldError "User.Password" "Password" "required"]
      else if u.Password.length < 6 then [fieldError "User.Password" "Password" "min"]
      else []))

/-- The call `c.ShouldBindJSON(&user)`: `body` is the outcome of decoding the JSON
into the struct, then the binding tags are checked. -/
def ShouldBindUser (lib : Lib) (body : Except String User) : Except String User :=
  match body with
  | .error err => .error err
  | .ok user =>
    match user.binding lib with
    | some err => .error err
    | none => .ok user

/-- The `loginData` struct of `Login`. -/
structure LoginData where
  Email : String
  Password : String

/-- The binding tags of `loginData`: `Email` required and `email`,
`Password` required.  The struct type has no name, so the namespace of a
field is the field name alone. -/
def LoginData.binding (lib : Lib) (d : LoginData) : Error :=
  validationErrors
    ((if d.Email = "" then [fieldError "Email" "Email" "required"]
      else if lib.isEmail d.Email = false then [fieldError "Email" "Email" "email"]
      else []) ++
     (if d.Password = "" then [fieldError "Password" "Password" "required"] else []))

/-- The call `c.ShouldBindJSON(&loginData)`. -/
def ShouldBindLogin (lib : Lib) (body : Except String LoginData) :
    Except String LoginData :=
  match body with
  | .error err => .error err
  | .ok d =>
    match d.binding lib with
    | some err => .error err
    | none => .ok d

/-- The `updateData` struct of `UpdateProfile` (no binding tags). -/
structure UpdateProfileData where
  Name : String
  Email : String
  Password : String

/-- The `updateData` struct of `UpdateProduct` (no binding tags). -/
structure UpdateProductData where
  Name : String
  Description : String
  Price : ℚ
  Quantity : Int

/-- The allow-list both upload handlers pass to `ValidateFileType`. -/
def allowedTypes : List String := ["image/jpeg", "image/png", "image/gif"]

/-! ## controllers/user_controller.go -/

/-- The handler `UserController.Register`. -/
def Register (lib : Lib) (env : Env) (body : Except String User) (w : World) :
    Response × World :=
  match ShouldBindUser lib body with
  | .error err => (errorJSON StatusBadRequest err, w)
  | .ok user =>
    match DB.FirstUserByEmail user.Email w with
    | (some _, w) => (errorJSON StatusBadRequest "Email already registered", w)
    | (none, w) =>
      match DB.CreateUser lib env user w with
      | (.error _, w) => (errorJSON StatusInternalServerError "Failed to register user", w)
      | (.ok user, w) =>
        match env.GenerateJWT user.ID with
        | .error _ =>
          (errorJSON StatusInternalServerError "Failed to generate token", w)
        | .ok token =>
          ({ status := StatusCreated
             body := [("user", .userResponse user.ToResponse), ("token", .str token)] }, w)

/-- The handler `UserController.Login`. -/
def Login (lib : Lib) (env : Env) (body : Except String LoginData) (w : World) :
    Response × World :=
  match ShouldBindLogin lib body with
  | .error err => (errorJSON StatusBadRequest err, w)
  | .ok loginData =>
    match DB.FirstUserByEmail loginData.Email w with
    | (none, w) => (errorJSON StatusUnauthorized "Invalid credentials", w)
    | (some user, w) =>
      if user.ComparePassword lib loginData.Password = false then
        (errorJSON StatusUnauthorized "Invalid credentials", w)
      else
        match env.GenerateJWT user.ID with
        | .error _ =>
          (errorJSON StatusInternalServerError "Failed to generate token", w)
        | .ok token =>
          ({ status := StatusOK
             body := [("user", .userResponse user.ToResponse), ("token", .str token)] }, w)

/-- The handler `UserController.GetProfile`. -/
def GetProfile (c : Context) (w : World) : Response × World :=
  match c.userId with
  | none => (errorJSON StatusUnauthorized "Unauthorized", w)
  | some userID =>
    match DB.FirstUser userID w with
    | (none, w) => (errorJSON StatusNotFound "User not found", w)
    | (some user, w) =>
      ({ status := StatusOK, body := [("user", .userResponse user.ToResponse)] }, w)

/-- The handler `UserController.UpdateProfile`. -/
def UpdateProfile (lib : Lib) (env : Env) (c : Context)
    (body : Except String UpdateProfileData) (w : World) : Response × World :=
  match c.userId with
  | none => (errorJSON StatusUnauthorized "Unauthorized", w)
  | some userID =>
    match DB.FirstUser userID w with
    | (none, w) => (errorJSON StatusNotFound "User not found", w)
    | (some user, w) =>
      match body with
      | .error err => (errorJSON StatusBadRequest err, w)
      | .ok updateData =>
        let user := if updateData.Name ≠ "" then { user with Name := updateData.Name } else user
        -- the email check: the lookup happens only for an email other than the user's
        let found : Option User × World :=
          if updateData.Email ≠ "" ∧ updateData.Email ≠ user.Email then
            DB.FirstUserByEmail updateData.Email w
          else (none, w)
        match found with
        | (some _, w) => (errorJSON StatusBadRequest "Email already registered", w)
        | (none, w) =>
          let user :=
            if updateData.Email ≠ "" then { user with Email := updateData.Email } else user
          let user :=
            if updateData.Password ≠ "" then { user with Password := updateData.Password }
            else user
          match DB.SaveUser lib env user w with
          | (.error _, w) =>
            (errorJSON StatusInternalServerError "Failed to update profile", w)
          | (.ok user, w) =>
            ({ status := StatusOK, body := [("user", .userResponse user.ToResponse)] }, w)

/-- The handler `UserController.UploadProfileImage`. -/
def UploadProfileImage (lib : Lib) (env : Env) (c : Context) (w : World) :
    Response × World :=
  match c.userId with
  | none => (errorJSON StatusUnauthorized "Unauthorized", w)
  | some userID =>
    match DB.FirstUser userID w with
    | (none, w) => (errorJSON StatusNotFound "User not found", w)
    | (some user, w) =>
      match c.image with
      | none => (errorJSON StatusBadRequest "No file uploaded", w)
      | some file =>
        match ValidateFileType file allowedTypes with
        | some err => (errorJSON StatusBadRequest err, w)
        | none =>
          -- Delete old image if it exists (the returned error is dropped)
          let w := if user.ImagePath ≠ "" then (DeleteFile env user.ImagePath w).2 else w
          match UploadFile env file "users" w with
          | (.error _, w) =>
            (errorJSON StatusInternalServerError "Failed to upload image", w)
          | (.ok imagePath, w) =>
            let user := { user with ImagePath := imagePath }
            match DB.SaveUser lib env user w with
            | (.error _, w) =>
              (errorJSON StatusInternalServerError "Failed to update profile", w)
            | (.ok user, w) =>
              ({ status := StatusOK, body := [("user", .userResponse user.ToResponse)] }, w)

/-- The handler `UserController.GetAllUsers`. -/
def GetAllUsers (w : World) : Response × World :=
  match DB.FindUsers w with
  | (users, w) =>
    let userResponses := users.map User.ToResponse
    ({ status := StatusOK, body := [("users", .userResponses userResponses)] }, w)

/-- The handler `UserController.GetUserByID`. -/
def GetUserByID (c : Context) (w : World) : Response × World :=
  match ParseUint c.id with
  | none => (errorJSON StatusBadRequest "Invalid user ID", w)
  | some id =>
    match DB.FirstUser id w with
    | (none, w) => (errorJSON StatusNotFound "User not found", w)
    | (some user, w) =>
      ({ status := StatusOK, body := [("user", .userResponse user.ToResponse)] }, w)

/-- The handler `UserController.DeleteUser`. -/
def DeleteUser (env : Env) (c : Context) (w : World) : Response × World :=
  match ParseUint c.id with
  | none => (errorJSON StatusBadRequest "Invalid user ID", w)
  | some id =>
    match DB.FirstUser id w with
    | (none, w) => (errorJSON StatusNotFound "User not found", w)
    | (some user, w) =>
      -- Delete user's image if it exists (the returned error is dropped)
      let w := if user.ImagePath ≠ "" then (DeleteFile env user.ImagePath w).2 else w
      match DB.DeleteUser env user w with
      | (some _, w) => (errorJSON StatusInternalServerError "Failed to delete user", w)
      | (none, w) =>
        ({ status := StatusOK, body := [("message", .str "User deleted successfully")] }, w)

/-! ## controllers/product_controller.go -/

/-- The binding tags of `models.Product`: `Name` and `Description` required,
`Price` and `Quantity` required and `min=0`.  On a number `required` fails for
the zero value, and `min=0` fails below zero.  Every field is checked, and
reports the first of its tags that fails. -/
def Product.binding (p : Product) : Error :=
  validationErrors
    ((if p.Name = "" then [fieldError "Product.Name" "Name" "required"] else []) ++
     (if p.Description = "" then [fieldError "Product.Description" "Description" "required"]
      else []) ++
     (if p.Price = 0 then [fieldError "Product.Price" "Price" "required"]
      else if p.Price < 0 then [fieldError "Product.Price" "Price" "min"]
      else []) ++
     (if p.Quantity = 0 then [fieldError "Product.Quantity" "Quantity" "required"]
      else if p.Quantity < 0 then [fieldError "Product.Quantity" "Quantity" "min"]
      else []))

/-- The call `c.ShouldBindJSON(&product)`: `body` is the outcome of decoding the
JSON into the struct, then the binding tags are checked. -/
def ShouldBindProduct (body : Except String Product) : Except String Product :=
  match body with
  | .error err => .error err
  | .ok product =>
    match product.binding with
    | some err => .error err
    | none => .ok product

/-- The handler `ProductController.CreateProduct`. -/
def CreateProduct (env : Env) (body : Except String Product) (w : World) :
    Response × World :=
  match ShouldBindProduct body with
  | .error err => (errorJSON StatusBadRequest err, w)
  | .ok product =>
    match DB.CreateProduct env product w with
    | (.error _, w) =>
      (errorJSON StatusInternalServerError "Failed to create product", w)
    | (.ok product, w) =>
      ({ status := StatusCreated
         body := [("product", .productResponse product.ToResponse)] }, w)

/-- The field-by-field assignments of `UpdateProduct`. -/
def UpdateProductData.apply (updateData : UpdateProductData) (product : Product) : Product :=
  let product :=
    if updateData.Name ≠ "" then { product with Name := updateData.Name } else product
  let product :=
    if updateData.Description ≠ "" then { product with Description := updateData.Description }
    else product
  let product :=
    if updateData.Price ≠ 0 then { product with Price := updateData.Price } else product
  let product :=
    if updateData.Quantity ≠ 0 then { product with Quantity := updateData.Quantity }
    else product
  product

/-- The handler `ProductController.UpdateProduct`. -/
def UpdateProduct (env : Env) (c : Context) (body : Except String UpdateProductData)
    (w : World) : Response × World :=
  match ParseUint c.id with
  | none => (errorJSON StatusBadRequest "Invalid product ID", w)
  | some id =>
    match DB.FirstProduct id w with
    | (none, w) => (errorJSON StatusNotFound "Product not found", w)
    | (some product, w) =>
      match body with
      | .error err => (errorJSON StatusBadRequest err, w)
      | .ok updateData =>
        let product := updateData.apply product
        match DB.SaveProduct env product w with
        | (.error _, w) =>
          (errorJSON StatusInternalServerError "Failed to update product", w)
        | (.ok product, w) =>
          ({ status := StatusOK
             body := [("product", .productResponse product.ToResponse)] }, w)

/-- The handler `ProductController.DeleteProduct`. -/
def DeleteProduct (env : Env) (c : Context) (w : World) : Response × World :=
  match ParseUint c.id with
  | none => (errorJSON StatusBadRequest "Invalid product ID", w)
  | some id =>
    match DB.FirstProduct id w with
    | (none, w) => (errorJSON StatusNotFound "Product not found", w)
    | (some product, w) =>
      -- Delete product's image if it exists (the returned error is dropped)
      let w := if product.ImagePath ≠ "" then (DeleteFile env product.ImagePath w).2 else w
      match DB.DeleteProduct env product w with
      | (some _, w) => (errorJSON StatusInternalServerError "Failed to delete product", w)
      | (none, w) =>
        ({ status := StatusOK
           body := [("message", .str "Product deleted successfully")] }, w)

/-- The handler `ProductController.UploadProductImage`. -/
def UploadProductImage (env : Env) (c : Context) (w : World) : Response × World :=
  match ParseUint c.id with
  | none => (errorJSON StatusBadRequest "Invalid product ID", w)
  | some id =>
    match DB.FirstProduct id w with
    | (none, w) => (errorJSON StatusNotFound "Product not found", w)
    | (some product, w) =>
      match c.image with
      | none => (errorJSON StatusBadRequest "No file uploaded", w)
      | some file =>
        match ValidateFileType file allowedTypes with
        | some err => (errorJSON StatusBadRequest err, w)
        | none =>
          -- Delete old image if it exists (the returned error is dropped)
          let w := if product.ImagePath ≠ "" then (DeleteFile env product.ImagePath w).2 else w
          match UploadFile env file "products" w with
          | (.error _, w) =>
            (errorJSON StatusInternalServerError "Failed to upload image", w)
          | (.ok imagePath, w) =>
            let product := { product with ImagePath := imagePath }
            match DB.SaveProduct env product w with
            | (.error _, w) =>
              (errorJSON StatusInternalServerError "Failed to update product", w)
            | (.ok product, w) =>
              ({ status := StatusOK
                 body := [("product", .productResponse product.ToResponse)] }, w)

/-! ## routes/routes.go -/

/-- The handler functions that appear in routes: the auth middleware, the
controller methods, and any other middleware installed on the engine. -/
inductive HandlerFunc where
  | AuthMiddleware
  | Register | Login | GetProfile | UpdateProfile | UploadProfileImage
  | GetAllUsers | GetUserByID | DeleteUser
  | GetAllProducts | GetProductByID
  | CreateProduct | UpdateProduct | DeleteProduct | UploadProductImage
  | other (name : String)
deriving DecidableEq, Repr

/-- A registered route: gin runs `handlers` in order for a request that
matches `method` and `path`. -/
structure Route where
  method : String
  path : String
  handlers : List HandlerFunc
deriving DecidableEq, Repr

/-- The part of `gin.Engine` that route registration touches: the middleware
of the root group and the routes registered so far. -/
structure Engine where
  Handlers : List HandlerFunc
  routes : List Route

/-- A `gin.RouterGroup` obtained from `Group`. -/
structure RouterGroup where
  basePath : String
  Handlers : List HandlerFunc

/-- gin's `joinPaths`: the joined, cleaned path, keeping a trailing slash of
the relative path. -/
def joinPaths (absolutePath relativePath : String) : String :=
  if relativePath = "" then absolutePath
  else
    let finalPath := filepathJoin absolutePath relativePath
    if relativePath.data.getLast? = some '/' ∧ finalPath.data.getLast? ≠ some '/' then
      finalPath ++ "/"
    else finalPath

/-- The call `r.GET(path, h)` and friends on the engine: registers the root group's
middleware followed by the handler. -/
def Engine.handle (r : Engine) (method relativePath : String) (h : HandlerFunc) : Engine :=
  { r with routes := r.routes ++
      [{ method := method, path := joinPaths "/" relativePath, handlers := r.Handlers ++ [h] }] }

/-- The call `r.Group(relativePath)`: a group that starts with the root's middleware. -/
def Engine.Group (r : Engine) (relativePath : String) : RouterGroup :=
  { basePath := joinPaths "/" relativePath, Handlers := r.Handlers }

/-- The call `group.Use(middleware)`. -/
def RouterGroup.Use (g : RouterGroup) (middleware : HandlerFunc) : RouterGroup :=
  { g with Handlers := g.Handlers ++ [middleware] }

/-- The call `group.GET(path, h)` and friends: registers the group's middleware
followed by the handler, under the group's base path. -/
def RouterGroup.handle (g : RouterGroup) (method relativePath : String) (h : HandlerFunc)
    (r : Engine) : Engine :=
  { r with routes := r.routes ++
      [{ method := method, path := joinPaths g.basePath relativePath
         handlers := g.Handlers ++ [h] }] }

/-- The function `routes.SetupRoutes`. -/
def SetupRoutes (r : Engine) : Engine :=
  -- Auth routes (no authentication required)
  let r := r.handle "POST" "/auth/register" .Register
  let r := r.handle "POST" "/auth/login" .Login
  -- User routes (authentication required)
  let userRoutes := (r.Group "/users").Use .AuthMiddleware
  let r := userRoutes.handle "GET" "/me" .GetProfile r
  let r := userRoutes.handle "PUT" "/me" .UpdateProfile r
  let r := userRoutes.handle "POST" "/me/image" .UploadProfileImage r
  -- Admin user routes (authentication required)
  let adminRoutes := (r.Group "/admin").Use .AuthMiddleware
  let r := adminRoutes.handle "GET" "/users" .GetAllUsers r
  let r := adminRoutes.handle "GET" "/users/:id" .GetUserByID r
  let r := adminRoutes.handle "DELETE" "/users/:id" .DeleteUser r
  -- Product routes - public (no authentication required)
  let r := r.handle "GET" "/products" .GetAllProducts
  let r := r.handle "GET" "/products/:id" .GetProductByID
  -- Product routes - protected (authentication required)
  let protectedProducts := (r.Group "/products").Use .AuthMiddleware
  let r := protectedProducts.handle "POST" "" .CreateProduct r
  let r := protectedProducts.handle "PUT" "/:id" .UpdateProduct r
  let r := protectedProducts.handle "DELETE" "/:id" .DeleteProduct r
  let r := protectedProducts.handle "POST" "/:id/image" .UploadProductImage r
  r

/-! ## Concrete inputs on which the theorems are exercised -/

/-- An environment in which nothing fails. -/
def demoEnv : Env :=
  { now := 100
    salt := 7
    uuid := "3f2b8c1e-0d4a-4c6b-9e7f-5a1d2c3b4e5f"
    GenerateJWT := fun _ => .ok "signed-token"
    createFails := false
    saveFails := false
    deleteFails := false
    mkdirFails := false
    saveFileFails := false
    removeFails := false
    dirs := ["uploads", "uploads/users", "uploads/products"] }

/-- A product without an image. -/
def demoProduct : Product :=
  { ID := 1, Name := "A", Description := "first product", Price := 10, Quantity := 3
    ImagePath := "", CreatedAt := 5, UpdatedAt := 5 }

/-- A database holding `demoProduct` only. -/
def demoWorld : World :=
  { users := [], userSeq := 0, products := [demoProduct], productSeq := 1
    files := [], trace := [] }

/-- A request for the record with id 1, without authenticated user or file. -/
def demoContext : Context := { userId := none, id := "1", image := none }

/-- A stand-in for the third-party functions, simple enough to evaluate: the
digest is the password behind a marker, and an email is a string with an `@`. -/
def demoLib : Lib :=
  { GenerateFromPassword := fun _ password => .ok ("digest:" ++ password)
    CompareHashAndPassword := fun hashedPassword password =>
      if hashedPassword = "digest:" ++ password then none
      else some "hashedPassword is not the hash of the given password"
    isEmail := fun s => s.data.contains '@' }

/-- A registration payload carrying name, email and password only. -/
def demoSignup : User :=
  { ID := 0, Name := "Ana", Email := "ana@example.com", Password := "secret1"
    ImagePath := "", CreatedAt := 0, UpdatedAt := 0 }

/-- A stored user with a profile image. -/
def demoAna : User :=
  { ID := 1, Name := "Ana", Email := "ana@example.com", Password := "digest:secret1"
    ImagePath := "/uploads/users/ana.png", CreatedAt := 10, UpdatedAt := 10 }

/-- A stored user without a profile image. -/
def demoBob : User :=
  { ID := 2, Name := "Bob", Email := "bob@example.com", Password := "digest:hunter22"
    ImagePath := "", CreatedAt := 20, UpdatedAt := 20 }

/-- A stored product with an image. -/
def demoLamp : Product :=
  { ID := 2, Name := "Lamp", Description := "desk lamp", Price := 35, Quantity := 4
    ImagePath := "/uploads/products/lamp.png", CreatedAt := 30, UpdatedAt := 30 }

/-- A database with two users and two products, and the two image files. -/
def demoShop : World :=
  { users := [demoAna, demoBob], userSeq := 2
    products := [demoProduct, demoLamp], productSeq := 2
    files := ["uploads/users/ana.png", "uploads/products/lamp.png"]
    trace := [] }

/-- A registration payload that also carries an id, the one of the stored user
`demoAna`: the JSON body with `"id": 1`, `"name": "Carl"`,
`"email": "carl@example.com"` and `"password": "secret1"`. -/
def demoCarl : User :=
  { ID := 1, Name := "Carl", Email := "carl@example.com", Password := "secret1"
    ImagePath := "", CreatedAt := 0, UpdatedAt := 0 }

/-- An uploaded PDF. -/
def demoPdf : FileHeader :=
  { Filename := "invoice.pdf"
    Header := [("Content-Disposition", ["form-data; name=\"image\"; filename=\"invoice.pdf\""]),
      ("Content-Type", ["application/pdf"])] }

/-- An uploaded PNG image. -/
def demoPng : FileHeader :=
  { Filename := "photo.png"
    Header := [("Content-Disposition", ["form-data; name=\"image\"; filename=\"photo.png\""]),
      ("Content-Type", ["image/png"])] }

/-- A creation payload for a free product: every field filled, price zero. -/
def demoFreeSample : Product :=
  { ID := 0, Name := "Sticker", Description := "free sample", Price := 0, Quantity := 10
    ImagePath := "", CreatedAt := 0, UpdatedAt := 0 }

/-- A creation payload for a product that is out of stock: quantity zero. -/
def demoSoldOut : Product :=
  { ID := 0, Name := "Kettle", Description := "steel kettle", Price := 25, Quantity := 0
    ImagePath := "", CreatedAt := 0, UpdatedAt := 0 }

end Backend

namespace Backend

/-! # Theorems -/

/-! ## Lemmas about `First` -/

theorem First_eq_none_iff {α : Type} (key : α → Nat) (l : List α) :
    First key l = none ↔ l = [] := by
  cases l with
  | nil => simp [First]
  | cons r rs =>
    simp only [First]
    cases First key rs with
    | none => simp
    | some m => by_cases h : key m < key r <;> simp [h]

theorem First_mem {α : Type} (key : α → Nat) :
    ∀ (l : List α) (x : α), First key l = some x → x ∈ l
  | [], x, h => by simp [First] at h
  | r :: rs, x, h => by
    simp only [First] at h
    cases hrs : First key rs with
    | none =>
      rw [hrs] at h
      simp only [Option.some.injEq] at h
      simp [h]
    | some m =>
      rw [hrs] at h
      have hm := First_mem key rs m hrs
      by_cases hlt : key m < key r
      · simp only [hlt, if_true, Option.some.injEq] at h
        subst h
        exact List.mem_cons_of_mem _ hm
      · simp only [hlt, if_false, Option.some.injEq] at h
        simp [h]

theorem First_eq_of_forall {α : Type} (key : α → Nat) (l : List α) (s : α)
    (hne : l ≠ []) (hall : ∀ y ∈ l, y = s) : First key l = some s := by
  cases h : First key l with
  | none => exact absurd ((First_eq_none_iff key l).1 h) hne
  | some x => rw [hall x (First_mem key l x h)]

theorem First_singleton {α : Type} (key : α → Nat) (x : α) : First key [x] = some x := by
  simp [First]



/-! ## Lemmas about the statements on `products` -/

theorem FirstProduct_found (id : Nat) (w : World) (p : Product)
    (h : (DB.FirstProduct id w).1 = some p) : p ∈ w.products ∧ p.ID = id := by
  have := First_mem _ _ _ h
  simpa using this

theorem SaveProduct_trace (env : Env) (p : Product) (w : World) :
    (DB.SaveProduct env p w).2.trace = w.trace ++ [.saveProduct p] := by
  simp only [DB.SaveProduct, Product.BeforeCreate, DB.insertProduct]
  repeat' split
  all_goals simp [World.log]

theorem SaveProduct_ok (env : Env) (p : Product) (w : World) (hkey : p.ID ≠ 0)
    (hsave : env.saveFails = false) (hrow : ∃ r ∈ w.products, r.ID = p.ID) :
    DB.SaveProduct env p w =
      (.ok { p with UpdatedAt := env.now },
        { w.log (.saveProduct p) with
          products := w.products.map
            (fun r => if r.ID = p.ID then { p with UpdatedAt := env.now } else r) }) := by
  obtain ⟨r, hr, hrid⟩ := hrow
  have hany : (w.products.any fun r => r.ID == p.ID) = true :=
    List.any_eq_true.2 ⟨r, hr, by simp [hrid]⟩
  simp [DB.SaveProduct, hkey, hsave, World.log, hany]

theorem apply_fields (u : UpdateProductData) (p : Product) :
    (u.apply p).Name = (if u.Name ≠ "" then u.Name else p.Name) ∧
    (u.apply p).Description = (if u.Description ≠ "" then u.Description else p.Description) ∧
    (u.apply p).Price = (if u.Price ≠ 0 then u.Price else p.Price) ∧
    (u.apply p).Quantity = (if u.Quantity ≠ 0 then u.Quantity else p.Quantity) ∧
    (u.apply p).ID = p.ID ∧ (u.apply p).ImagePath = p.ImagePath := by
  unfold UpdateProductData.apply
  by_cases h1 : u.Name = "" <;> by_cases h2 : u.Description = "" <;>
    by_cases h3 : u.Price = 0 <;> by_cases h4 : u.Quantity = 0 <;> simp [h1, h2, h3, h4]

theorem UpdateProduct_eq (env : Env) (c : Context) (u : UpdateProductData) (w : World)
    (id : Nat) (p : Product) (hid : ParseUint c.id = some id)
    (hp : (DB.FirstProduct id w).1 = some p) :
    UpdateProduct env c (.ok u) w =
      match DB.SaveProduct env (u.apply p) (w.log .selectProducts) with
      | (.error _, w) =>
        (errorJSON StatusInternalServerError "Failed to update product", w)
      | (.ok product, w) =>
        ({ status := StatusOK
           body := [("product", .productResponse product.ToResponse)] }, w) := by
  simp only [DB.FirstProduct] at hp
  simp only [UpdateProduct, hid, DB.FirstProduct, hp]

/-- C1: `UpdateProduct` merges field by field.  For a stored product `p` found
under the requested id and a decoded update `u`, the handler passes to
`DB.Save` the product `u.apply p`, whose `Name`, `Description`, `Price` and
`Quantity` are those of `u` where `u` has a non-empty / non-zero value and
those of `p` otherwise, and whose `ID` and `ImagePath` are those of `p`; when
the write does not fail that product (stamped with the update time) is the
stored row afterwards and the response is 200.  In particular from
name "A", price 10 the request with only price 20 gives name "A" and price 20,
and a following request with price 0 leaves the price at 20. -/
theorem UpdateProduct_merges_fields (env : Env) (c : Context) (u : UpdateProductData)
    (w : World) (id : Nat) (p : Product) (hid : ParseUint c.id = some id)
    (hp : (DB.FirstProduct id w).1 = some p) :
    (UpdateProduct env c (.ok u) w).2.trace
        = w.trace ++ [.selectProducts, .saveProduct (u.apply p)] ∧
    (u.apply p).Name = (if u.Name ≠ "" then u.Name else p.Name) ∧
    (u.apply p).Description = (if u.Description ≠ "" then u.Description else p.Description) ∧
    (u.apply p).Price = (if u.Price ≠ 0 then u.Price else p.Price) ∧
    (u.apply p).Quantity = (if u.Quantity ≠ 0 then u.Quantity else p.Quantity) ∧
    (u.apply p).ID = p.ID ∧ (u.apply p).ImagePath = p.ImagePath ∧
    (env.saveFails = false → p.ID ≠ 0 →
      (UpdateProduct env c (.ok u) w).1 =
        { status := StatusOK
          body := [("product",
            .productResponse ({ u.apply p with UpdatedAt := env.now }).ToResponse)] } ∧
      (DB.FirstProduct id (UpdateProduct env c (.ok u) w).2).1
        = some { u.apply p with UpdatedAt := env.now }) ∧
    (∀ q : Product, q.Name = "A" → q.Price = 10 →
      (UpdateProductData.apply ⟨"", "", 20, 0⟩ q).Name = "A" ∧
      (UpdateProductData.apply ⟨"", "", 20, 0⟩ q).Price = 20 ∧
      ∀ u2 : UpdateProductData, u2.Price = 0 →
        (u2.apply (UpdateProductData.apply ⟨"", "", 20, 0⟩ q)).Price = 20) := by
  obtain ⟨hmem, hpid⟩ := FirstProduct_found id w p hp
  have hf := apply_fields u p
  obtain ⟨h1, h2, h3, h4, h5, h6⟩ := hf
  refine ⟨?_, h1, h2, h3, h4, h5, h6, ?_, ?_⟩
  · rw [UpdateProduct_eq env c u w id p hid hp]
    have := SaveProduct_trace env (u.apply p) (w.log .selectProducts)
    split <;> rename_i h <;> rw [h] at this <;> simpa [World.log] using this
  · intro hsave hkey
    have hkey2 : (u.apply p).ID ≠ 0 := by rw [h5]; exact hkey
    have hrow : ∃ r ∈ (w.log Event.selectProducts).products, r.ID = (u.apply p).ID :=
      ⟨p, hmem, h5.symm⟩
    rw [UpdateProduct_eq env c u w id p hid hp,
      SaveProduct_ok env (u.apply p) _ hkey2 hsave hrow]
    refine ⟨rfl, ?_⟩
    simp only [DB.FirstProduct]
    apply First_eq_of_forall
    · intro hnil
      have hin : ({ u.apply p with UpdatedAt := env.now } : Product) ∈
          List.filter (fun r => r.ID == id) (List.map (fun r =>
            if r.ID = (u.apply p).ID then { u.apply p with UpdatedAt := env.now } else r)
            (w.log Event.selectProducts).products) := by
        rw [List.mem_filter]
        refine ⟨List.mem_map.2 ⟨p, hmem, by simp [h5]⟩, by simp [h5, hpid]⟩
      rw [hnil] at hin
      simp at hin
    · intro y hy
      rw [List.mem_filter, List.mem_map] at hy
      obtain ⟨⟨r, -, hr⟩, hyid⟩ := hy
      by_cases hrid : r.ID = (u.apply p).ID
      · simpa [hrid] using hr.symm
      · simp only [hrid, if_false] at hr
        subst hr
        exact absurd (by simpa [h5, hpid] using hyid) hrid
  · intro q hn hpr
    have g := apply_fields ⟨"", "", 20, 0⟩ q
    refine ⟨by simpa [hn] using g.1, by simpa using g.2.2.1, ?_⟩
    intro u2 hu2
    have g2 := apply_fields u2 (UpdateProductData.apply ⟨"", "", 20, 0⟩ q)
    rw [g2.2.2.1]
    simp only [hu2, ne_eq, not_true_eq_false, if_false]
    simpa using g.2.2.1


theorem UpdateProduct_merges_fields_witness :
    ParseUint demoContext.id = some 1 ∧
    (DB.FirstProduct 1 demoWorld).1 = some demoProduct ∧
    (UpdateProductData.apply ⟨"", "", 20, 0⟩ demoProduct).Price
      = (if (20 : ℚ) ≠ 0 then 20 else demoProduct.Price) ∧
    (UpdateProductData.apply ⟨"", "", 20, 0⟩ demoProduct).ImagePath = demoProduct.ImagePath :=
  ⟨by decide, by decide,
    (UpdateProduct_merges_fields demoEnv demoContext ⟨"", "", 20, 0⟩ demoWorld 1 demoProduct
      (by decide) (by decide)).2.2.2.1,
    (UpdateProduct_merges_fields demoEnv demoContext ⟨"", "", 20, 0⟩ demoWorld 1 demoProduct
      (by decide) (by decide)).2.2.2.2.2.2.1⟩

/-! ## Lemmas about the statements on `users` -/

theorem FirstUserByEmail_none (email : String) (w : World)
    (hfresh : ∀ r ∈ w.users, r.Email ≠ email) :
    DB.FirstUserByEmail email w = (none, w.log .selectUsers) := by
  have : w.users.filter (fun r => r.Email == email) = [] := by
    rw [List.filter_eq_nil_iff]
    intro r hr
    simpa using hfresh r hr
  simp [DB.FirstUserByEmail, this, First]

theorem CreateUser_ok (lib : Lib) (env : Env) (u : User) (w : World) (d : String)
    (hhash : lib.GenerateFromPassword env.salt u.Password = .ok d)
    (hinsert : env.createFails = false)
    (hkey : ∀ r ∈ w.users, r.ID ≠ (if u.ID = 0 then w.userSeq + 1 else u.ID))
    (hfresh : ∀ r ∈ w.users, r.Email ≠ u.Email) :
    DB.CreateUser lib env u w =
      (.ok { ID := if u.ID = 0 then w.userSeq + 1 else u.ID
             Name := u.Name, Email := u.Email, Password := d, ImagePath := u.ImagePath
             CreatedAt := if u.CreatedAt = 0 then env.now else u.CreatedAt
             UpdatedAt := if u.UpdatedAt = 0 then env.now else u.UpdatedAt },
       { users := w.users ++
           [{ ID := if u.ID = 0 then w.userSeq + 1 else u.ID
              Name := u.Name, Email := u.Email, Password := d, ImagePath := u.ImagePath
              CreatedAt := if u.CreatedAt = 0 then env.now else u.CreatedAt
              UpdatedAt := if u.UpdatedAt = 0 then env.now else u.UpdatedAt }]
         userSeq := if u.ID = 0 then w.userSeq + 1 else w.userSeq
         products := w.products, productSeq := w.productSeq, files := w.files
         trace := w.trace ++ [.createUser u] }) := by
  have hk : (w.users.any fun r => r.ID == (if u.ID = 0 then w.userSeq + 1 else u.ID)) = false := by
    rw [List.any_eq_false]
    intro r hr
    simpa using hkey r hr
  have he : (w.users.any fun r => r.Email == u.Email) = false := by
    rw [List.any_eq_false]
    intro r hr
    simpa using hfresh r hr
  by_cases hz : u.ID = 0
  · simp only [hz, if_true] at hk
    simp [DB.CreateUser, User.BeforeCreate, hhash, DB.insertUser, hinsert, World.log, hz, hk, he]
  · simp only [hz, if_false] at hk
    simp [DB.CreateUser, User.BeforeCreate, hhash, DB.insertUser, hinsert, World.log, hz, hk, he]


theorem User_binding_none (lib : Lib) (u : User) (hname : u.Name ≠ "")
    (hemail : u.Email ≠ "" ∧ lib.isEmail u.Email = true) (hpw : 6 ≤ u.Password.length) :
    u.binding lib = none := by
  have hne : u.Password ≠ "" := by
    intro h
    rw [h] at hpw
    simp at hpw
  have hlen : ¬ u.Password.length < 6 := by omega
  simp [User.binding, validationErrors, hname, hemail.1, hemail.2, hne, hlen]

theorem LoginData_binding_none (lib : Lib) (d : LoginData) 
    (hemail : d.Email ≠ "" ∧ lib.isEmail d.Email = true) (hpw : d.Password ≠ "") :
    d.binding lib = none := by
  simp [LoginData.binding, validationErrors, hemail.1, hemail.2, hpw]

theorem FirstUserByEmail_appended (email : String) (w : World) (created : User) (users : List User)
    (hfresh : ∀ r ∈ users, r.Email ≠ email) (hc : created.Email = email)
    (hw : w.users = users ++ [created]) :
    DB.FirstUserByEmail email w = (some created, w.log .selectUsers) := by
  have h1 : users.filter (fun r => r.Email == email) = [] := by
    rw [List.filter_eq_nil_iff]
    intro r hr
    simpa using hfresh r hr
  simp [DB.FirstUserByEmail, hw, List.filter_append, h1, hc, First]

theorem Login_ok (lib : Lib) (env : Env) (email password tok : String) (w : World)
    (created : User) (users : List User)
    (hemail : email ≠ "" ∧ lib.isEmail email = true) (hpw : password ≠ "")
    (hfresh : ∀ r ∈ users, r.Email ≠ email) (hc : created.Email = email)
    (hw : w.users = users ++ [created])
    (hcmp : lib.CompareHashAndPassword created.Password password = none)
    (htok : env.GenerateJWT created.ID = .ok tok) :
    Login lib env (.ok ⟨email, password⟩) w =
      ({ status := StatusOK
         body := [("user", .userResponse created.ToResponse), ("token", .str tok)] },
       w.log .selectUsers) := by
  have hl := LoginData_binding_none lib ⟨email, password⟩ hemail hpw
  simp only [Login, ShouldBindLogin, hl]
  rw [FirstUserByEmail_appended email w created users hfresh hc hw]
  simp [User.ComparePassword, hcmp, htok]

theorem Register_ok (lib : Lib) (env : Env) (u : User) (w : World) (d tok : String)
    (hname : u.Name ≠ "")
    (hemail : u.Email ≠ "" ∧ lib.isEmail u.Email = true)
    (hpw : 6 ≤ u.Password.length)
    (hfresh : ∀ r ∈ w.users, r.Email ≠ u.Email)
    (hhash : lib.GenerateFromPassword env.salt u.Password = .ok d)
    (hinsert : env.createFails = false)
    (hkey : ∀ r ∈ w.users, r.ID ≠ (if u.ID = 0 then w.userSeq + 1 else u.ID))
    (htok : env.GenerateJWT (if u.ID = 0 then w.userSeq + 1 else u.ID) = .ok tok) :
    Register lib env (.ok u) w =
      ({ status := StatusCreated
         body := [("user", .userResponse (User.ToResponse
            { ID := if u.ID = 0 then w.userSeq + 1 else u.ID
              Name := u.Name, Email := u.Email, Password := d, ImagePath := u.ImagePath
              CreatedAt := if u.CreatedAt = 0 then env.now else u.CreatedAt
              UpdatedAt := if u.UpdatedAt = 0 then env.now else u.UpdatedAt })),
            ("token", .str tok)] },
       { users := w.users ++
           [{ ID := if u.ID = 0 then w.userSeq + 1 else u.ID
              Name := u.Name, Email := u.Email, Password := d, ImagePath := u.ImagePath
              CreatedAt := if u.CreatedAt = 0 then env.now else u.CreatedAt
              UpdatedAt := if u.UpdatedAt = 0 then env.now else u.UpdatedAt }]
         userSeq := if u.ID = 0 then w.userSeq + 1 else w.userSeq
         products := w.products, productSeq := w.productSeq, files := w.files
         trace := w.trace ++ [.selectUsers, .createUser u] }) := by
  have hb := User_binding_none lib u hname hemail hpw
  have hc := CreateUser_ok lib env u (w.log .selectUsers) d hhash hinsert hkey hfresh
  simp only [World.log, List.append_assoc, List.singleton_append] at hc
  simp only [Register, ShouldBindUser, hb, FirstUserByEmail_none u.Email w hfresh]
  simp only [World.log, hc, htok]

/-- C3 as stated fails: the payload `demoCarl` has a non-empty name, a
well-formed email that no user stored in `demoShop` has, and a password of 7
characters; in `demoEnv` the driver fails no INSERT and tokens are issued, and
the stand-in bcrypt hashes the password.  The payload also carries the id 1,
which `Register` binds into the struct and `DB.Create` inserts as primary key;
user 1 exists, so the response is 500, not 201, no user is stored, and the
`Login` that follows answers 401. -/
theorem Register_fails_on_taken_id :
    demoCarl.Name ≠ "" ∧ demoLib.isEmail demoCarl.Email = true ∧
    6 ≤ demoCarl.Password.length ∧
    (∀ r ∈ demoShop.users, r.Email ≠ demoCarl.Email) ∧
    demoEnv.createFails = false ∧
    demoEnv.GenerateJWT demoCarl.ID = .ok "signed-token" ∧
    demoLib.GenerateFromPassword demoEnv.salt demoCarl.Password = .ok "digest:secret1" ∧
    (Register demoLib demoEnv (.ok demoCarl) demoShop).1 =
      errorJSON StatusInternalServerError "Failed to register user" ∧
    (Register demoLib demoEnv (.ok demoCarl) demoShop).2.users = demoShop.users ∧
    (Login demoLib demoEnv (.ok ⟨demoCarl.Email, demoCarl.Password⟩)
        (Register demoLib demoEnv (.ok demoCarl) demoShop).2).1 =
      errorJSON StatusUnauthorized "Invalid credentials" := by
  refine ⟨by decide, by decide, by decide, by decide, rfl, rfl, rfl, ?_, ?_, ?_⟩
  · decide
  · decide
  · decide

/-- C3, amended: for a valid registration payload (non-empty name, well-formed
email, password of at least 6 characters) whose email is not yet stored,
whose password bcrypt hashes (it returns a digest `d`) and whose primary key
is free (the id the payload carries or, when it carries none, the next value
of the sequence belongs to no stored user), `Register` responds 201 with the
created user and a token and stores that user, and a following `Login` with
the same email and password responds 200 with the same user and a token.
Assumed, as the claim does, that nothing fails: the driver does not fail the
INSERT, bcrypt accepts the password it hashed, and both tokens are issued. -/
theorem Register_then_Login_succeeds (lib : Lib) (env1 env2 : Env) (u : User) (w : World)
    (d tok1 tok2 : String)
    (hname : u.Name ≠ "")
    (hemail : u.Email ≠ "" ∧ lib.isEmail u.Email = true)
    (hpw : 6 ≤ u.Password.length)
    (hfresh : ∀ r ∈ w.users, r.Email ≠ u.Email)
    (hhash : lib.GenerateFromPassword env1.salt u.Password = .ok d)
    (hcmp : lib.CompareHashAndPassword d u.Password = none)
    (hinsert : env1.createFails = false)
    (hkey : ∀ r ∈ w.users, r.ID ≠ (if u.ID = 0 then w.userSeq + 1 else u.ID))
    (htok1 : env1.GenerateJWT (if u.ID = 0 then w.userSeq + 1 else u.ID) = .ok tok1)
    (htok2 : env2.GenerateJWT (if u.ID = 0 then w.userSeq + 1 else u.ID) = .ok tok2) :
    ∃ created : User,
      created.Name = u.Name ∧ created.Email = u.Email ∧ created.Password = d ∧
      (Register lib env1 (.ok u) w).2.users = w.users ++ [created] ∧
      (Register lib env1 (.ok u) w).1 =
        { status := StatusCreated
          body := [("user", .userResponse created.ToResponse), ("token", .str tok1)] } ∧
      (Login lib env2 (.ok ⟨u.Email, u.Password⟩) (Register lib env1 (.ok u) w).2).1 =
        { status := StatusOK
          body := [("user", .userResponse created.ToResponse), ("token", .str tok2)] } := by
  have hne : u.Password ≠ "" := by
    intro h
    rw [h] at hpw
    simp at hpw
  have hreg := Register_ok lib env1 u w d tok1 hname hemail hpw hfresh hhash hinsert hkey htok1
  obtain ⟨created, hcr⟩ : ∃ c : User, c =
      ⟨if u.ID = 0 then w.userSeq + 1 else u.ID, u.Name, u.Email, d, u.ImagePath,
        if u.CreatedAt = 0 then env1.now else u.CreatedAt,
        if u.UpdatedAt = 0 then env1.now else u.UpdatedAt⟩ := ⟨_, rfl⟩
  rw [← hcr] at hreg
  have hid : created.ID = (if u.ID = 0 then w.userSeq + 1 else u.ID) := by rw [hcr]
  have hce : created.Email = u.Email := by rw [hcr]
  have hcp : created.Password = d := by rw [hcr]
  refine ⟨created, by rw [hcr], hce, hcp, by rw [hreg], by rw [hreg], ?_⟩
  rw [hreg]
  rw [Login_ok lib env2 u.Email u.Password tok2 _ created w.users hemail hne hfresh hce rfl
    (by rw [hcp]; exact hcmp) (by rw [hid]; exact htok2)]


theorem Register_then_Login_succeeds_witness :
    ∃ created : User,
      created.Name = "Ana" ∧ created.Email = "ana@example.com" ∧
      created.Password = "digest:secret1" ∧
      (Register demoLib demoEnv (.ok demoSignup) demoWorld).2.users
        = demoWorld.users ++ [created] ∧
      (Register demoLib demoEnv (.ok demoSignup) demoWorld).1 =
        { status := StatusCreated
          body := [("user", .userResponse created.ToResponse),
            ("token", .str "signed-token")] } ∧
      (Login demoLib demoEnv (.ok ⟨"ana@example.com", "secret1"⟩)
          (Register demoLib demoEnv (.ok demoSignup) demoWorld).2).1 =
        { status := StatusOK
          body := [("user", .userResponse created.ToResponse),
            ("token", .str "signed-token")] } :=
  Register_then_Login_succeeds demoLib demoEnv demoEnv demoSignup demoWorld
    "digest:secret1" "signed-token" "signed-token"
    (by decide) (by decide) (by decide) (by decide) rfl (by decide) (by decide)
    (by decide) rfl rfl

/-! ## The schema constraints are preserved -/

theorem wf_of_users_eq (w w1 : World) (hw : w.wf) (hu : w1.users = w.users)
    (hp : w1.products = w.products) : w1.wf := by
  unfold World.wf at *
  rw [hu, hp]
  exact hw

theorem wf_append_user (w w1 : World) (u : User) (hw : w.wf) (hz : u.ID ≠ 0)
    (hk : ∀ r ∈ w.users, r.ID ≠ u.ID) (he : ∀ r ∈ w.users, r.Email ≠ u.Email)
    (hu : w1.users = w.users ++ [u]) (hp : w1.products = w.products) : w1.wf := by
  obtain ⟨h0, hid, hem, hp0, hpid⟩ := hw
  unfold World.wf
  rw [hu, hp]
  refine ⟨?_, ?_, ?_, hp0, hpid⟩
  · intro r hr
    rcases List.mem_append.1 hr with h | h
    · exact h0 r h
    · simp only [List.mem_singleton] at h
      subst h
      exact hz
  · simp only [List.map_append, List.map_cons, List.map_nil]
    rw [List.nodup_append]
    refine ⟨hid, by simp, ?_⟩
    intro a ha hb
    simp only [List.mem_singleton] at hb
    obtain ⟨r, hr, hra⟩ := List.mem_map.1 ha
    exact hk r hr (by rw [hra, hb])
  · simp only [List.map_append, List.map_cons, List.map_nil]
    rw [List.nodup_append]
    refine ⟨hem, by simp, ?_⟩
    intro a ha hb
    simp only [List.mem_singleton] at hb
    obtain ⟨r, hr, hra⟩ := List.mem_map.1 ha
    exact he r hr (by rw [hra, hb])

theorem any_eq_false_of_not {α : Type} (l : List α) (f : α → Bool)
    (h : ¬ l.any f = true) : ∀ r ∈ l, f r = false := by
  rw [Bool.not_eq_true, List.any_eq_false] at h
  intro r hr
  simpa using h r hr

theorem insertUser_wf (env : Env) (u : User) (w : World) (hw : w.wf) :
    (DB.insertUser env u w).2.wf := by
  by_cases hf : env.createFails = true
  · simp only [DB.insertUser, hf, if_true]
    exact hw
  · by_cases hz : u.ID = 0
    · by_cases hk : (w.users.any fun r => r.ID == w.userSeq + 1) = true
      · simp only [DB.insertUser, hf, hz, hk, if_true, if_false]
        exact wf_of_users_eq w _ hw rfl rfl
      · by_cases he : (w.users.any fun r => r.Email == u.Email) = true
        · simp only [DB.insertUser, hf, hz, hk, he, if_true, if_false]
          exact wf_of_users_eq w _ hw rfl rfl
        · simp only [DB.insertUser, hf, hz, hk, he, if_true, if_false]
          have hk2 := any_eq_false_of_not _ _ hk
          have he2 := any_eq_false_of_not _ _ he
          refine wf_append_user w _ _ hw ?_ ?_ ?_ rfl rfl
          · simp
          · intro r hr
            simpa using hk2 r hr
          · intro r hr
            simpa using he2 r hr
    · by_cases hk : (w.users.any fun r => r.ID == u.ID) = true
      · simp only [DB.insertUser, hf, hz, hk, if_true, if_false]
        exact hw
      · by_cases he : (w.users.any fun r => r.Email == u.Email) = true
        · simp only [DB.insertUser, hf, hz, hk, he, if_true, if_false]
          exact hw
        · simp only [DB.insertUser, hf, hz, hk, he, if_true, if_false]
          have hk2 := any_eq_false_of_not _ _ hk
          have he2 := any_eq_false_of_not _ _ he
          refine wf_append_user w _ _ hw ?_ ?_ ?_ rfl rfl
          · exact hz
          · intro r hr
            simpa using hk2 r hr
          · intro r hr
            simpa using he2 r hr

theorem CreateUser_wf (lib : Lib) (env : Env) (u : User) (w : World) (hw : w.wf) :
    (DB.CreateUser lib env u w).2.wf := by
  simp only [DB.CreateUser, User.BeforeCreate]
  split
  · exact hw
  · exact insertUser_wf env _ _ hw


theorem map_replace_ID (u : User) (l : List User) :
    (l.map (fun r => if r.ID = u.ID then u else r)).map User.ID = l.map User.ID := by
  rw [List.map_map]
  apply List.map_congr_left
  intro r _
  by_cases h : r.ID = u.ID <;> simp [h]

theorem map_replace_of_ne (u : User) (l : List User) (h : ∀ r ∈ l, r.ID ≠ u.ID) :
    l.map (fun r => if r.ID = u.ID then u else r) = l := by
  induction l with
  | nil => rfl
  | cons r rs ih =>
    have h1 : r.ID ≠ u.ID := h r (List.mem_cons_self _ _)
    simp only [List.map_cons, h1, if_false]
    rw [ih (fun r hr => h r (List.mem_cons_of_mem _ hr))]

theorem map_replace_emails_nodup (u : User) :
    ∀ l : List User, (l.map User.ID).Nodup → (l.map User.Email).Nodup →
      (∀ r ∈ l, r.ID ≠ u.ID → r.Email ≠ u.Email) →
      ((l.map (fun r => if r.ID = u.ID then u else r)).map User.Email).Nodup
  | [], _, _, _ => by simp
  | r :: rs, hid, hem, hne => by
    simp only [List.map_cons, List.nodup_cons] at hid hem
    have ih := map_replace_emails_nodup u rs hid.2 hem.2
      (fun x hx => hne x (List.mem_cons_of_mem _ hx))
    by_cases h : r.ID = u.ID
    · have hrs : ∀ x ∈ rs, x.ID ≠ u.ID := by
        intro x hx hxu
        exact hid.1 (List.mem_map.2 ⟨x, hx, by rw [hxu, h]⟩)
      simp only [List.map_cons, h, if_true, map_replace_of_ne u rs hrs, List.nodup_cons]
      refine ⟨?_, hem.2⟩
      intro hmem
      obtain ⟨x, hx, hxe⟩ := List.mem_map.1 hmem
      exact hne x (List.mem_cons_of_mem _ hx) (hrs x hx) hxe
    · simp only [List.map_cons, h, if_false, List.nodup_cons]
      refine ⟨?_, ih⟩
      intro hmem
      obtain ⟨y, hy, hye⟩ := List.mem_map.1 hmem
      obtain ⟨x, hx, hxy⟩ := List.mem_map.1 hy
      by_cases hxu : x.ID = u.ID
      · simp only [hxu, if_true] at hxy
        subst hxy
        exact hne r (List.mem_cons_self _ _) h hye.symm
      · simp only [hxu, if_false] at hxy
        subst hxy
        exact hem.1 (List.mem_map.2 ⟨x, hx, hye⟩)

theorem BeforeUpdate_of_Save (lib : Lib) (env : Env) (u : User) :
    u.BeforeUpdate lib env { Model := u, Dest := u } = .ok u := by
  simp [User.BeforeUpdate, Statement.Changed]

theorem SaveUser_wf (lib : Lib) (env : Env) (u : User) (w : World) (hw : w.wf) :
    (DB.SaveUser lib env u w).2.wf := by
  by_cases hz : u.ID = 0
  · simp only [DB.SaveUser, hz, if_true, User.BeforeCreate]
    split
    · exact hw
    · exact insertUser_wf env _ _ hw
  · simp only [DB.SaveUser, hz, if_false, BeforeUpdate_of_Save]
    by_cases hf : env.saveFails = true
    · simp only [hf, if_true]
      exact hw
    · by_cases he : (w.log (.saveUser u)).users.any (fun r => r.ID != u.ID && r.Email == u.Email) = true
      · simp only [hf, he, if_true, if_false]
        exact hw
      · have he2 := any_eq_false_of_not _ _ he
        have hne : ∀ r ∈ w.users, r.ID ≠ u.ID → r.Email ≠ u.Email := by
          intro r hr hrid hre
          have := he2 r hr
          simp [hrid, hre] at this
        by_cases hk : (w.log (.saveUser u)).users.any (fun r => r.ID == u.ID) = true
        · simp only [hf, he, hk, if_true, if_false]
          obtain ⟨h0, hid, hem, hp0, hpid⟩ := hw
          refine ⟨?_, ?_, ?_, hp0, hpid⟩
          · intro r hr
            obtain ⟨x, hx, hxr⟩ := List.mem_map.1 hr
            by_cases hxu : x.ID = u.ID
            · simp only [hxu, if_true] at hxr
              subst hxr
              exact hz
            · simp only [hxu, if_false] at hxr
              subst hxr
              exact h0 x hx
          · have := map_replace_ID { u with UpdatedAt := env.now } w.users
            simp only at this
            show (List.map User.ID (List.map _ w.users)).Nodup
            rw [this]
            exact hid
          · exact map_replace_emails_nodup { u with UpdatedAt := env.now } w.users hid hem hne
        · simp only [hf, he, hk, if_true, if_false]
          exact insertUser_wf env _ _ hw


theorem wf_ite_log (c : Prop) [Decidable c] (w : World) (e : Event) (hw : w.wf) :
    (if c then w.log e else w).wf := by
  split <;> exact hw

theorem Register_wf (lib : Lib) (env : Env) (body : Except String User) (w : World)
    (hw : w.wf) : (Register lib env body w).2.wf := by
  simp only [Register, DB.FirstUserByEmail]
  split
  · exact hw
  · rename_i user _
    split
    · rename_i h
      simp only [Prod.mk.injEq] at h
      rw [← h.2]
      exact hw
    · rename_i w1 h
      simp only [Prod.mk.injEq] at h
      have hc := CreateUser_wf lib env user w1 (by rw [← h.2]; exact hw)
      split
      · rename_i h2
        rw [h2] at hc
        exact hc
      · rename_i h2
        rw [h2] at hc
        split <;> exact hc

theorem UpdateProfile_wf (lib : Lib) (env : Env) (c : Context)
    (body : Except String UpdateProfileData) (w : World) (hw : w.wf) :
    (UpdateProfile lib env c body w).2.wf := by
  simp only [UpdateProfile, DB.FirstUser, DB.FirstUserByEmail]
  split
  · exact hw
  · split
    · rename_i h
      simp only [Prod.mk.injEq] at h
      rw [← h.2]
      exact hw
    · rename_i user w1 h
      simp only [Prod.mk.injEq] at h
      have hw1 : w1.wf := by rw [← h.2]; exact hw
      split
      · exact hw1
      · rename_i updateData
        split
        · rename_i w2 h2
          have hw2 : w2.wf := by
            have h3 := congrArg Prod.snd h2
            simp only [apply_ite Prod.snd] at h3
            rw [← h3]
            exact wf_ite_log _ _ _ hw1
          exact hw2
        · rename_i w2 h2
          have hw2 : w2.wf := by
            have h3 := congrArg Prod.snd h2
            simp only [apply_ite Prod.snd] at h3
            rw [← h3]
            exact wf_ite_log _ _ _ hw1
          split
          · rename_i h3
            have hh := congrArg Prod.snd h3
            simp only at hh
            rw [← hh]
            exact SaveUser_wf lib env _ w2 hw2
          · rename_i h3
            have hh := congrArg Prod.snd h3
            simp only at hh
            rw [← hh]
            exact SaveUser_wf lib env _ w2 hw2


theorem FirstUserByEmail_some (email : String) (w : World)
    (h : ∃ r ∈ w.users, r.Email = email) :
    ∃ x, DB.FirstUserByEmail email w = (some x, w.log .selectUsers) := by
  obtain ⟨r, hr, hre⟩ := h
  have hne : w.users.filter (fun r => r.Email == email) ≠ [] := by
    intro hnil
    have : r ∈ w.users.filter (fun r => r.Email == email) := by
      rw [List.mem_filter]
      exact ⟨hr, by simp [hre]⟩
    rw [hnil] at this
    simp at this
  cases hF : First User.ID (w.users.filter (fun r => r.Email == email)) with
  | none => exact absurd ((First_eq_none_iff _ _).1 hF) hne
  | some x => exact ⟨x, by simp [DB.FirstUserByEmail, hF]⟩

theorem FirstUser_found (id : Nat) (w : World) (u : User)
    (h : (DB.FirstUser id w).1 = some u) : u ∈ w.users ∧ u.ID = id := by
  have := First_mem _ _ _ h
  simpa using this

theorem FirstUser_eq (id : Nat) (w : World) (u : User)
    (h : (DB.FirstUser id w).1 = some u) : DB.FirstUser id w = (some u, w.log .selectUsers) := by
  simp only [DB.FirstUser] at h ⊢
  rw [h]

theorem Register_duplicate (lib : Lib) (env : Env) (u : User) (w : World)
    (h : ∃ r ∈ w.users, r.Email = u.Email) :
    (Register lib env (.ok u) w).1.status = StatusBadRequest ∧
    (Register lib env (.ok u) w).2.users = w.users ∧
    (∀ x, Event.createUser x ∉ (Register lib env (.ok u) w).2.trace.drop w.trace.length) ∧
    (u.binding lib = none →
      (Register lib env (.ok u) w).1 = errorJSON StatusBadRequest "Email already registered") := by
  obtain ⟨x, hx⟩ := FirstUserByEmail_some u.Email w h
  cases hb : u.binding lib with
  | some err => simp [Register, ShouldBindUser, hb, errorJSON]
  | none => simp [Register, ShouldBindUser, hb, hx, errorJSON, World.log]

theorem UpdateProfile_conflict (lib : Lib) (env : Env) (c : Context) (upd : UpdateProfileData)
    (w : World) (id : Nat) (user : User)
    (hid : c.userId = some id) (hu : (DB.FirstUser id w).1 = some user)
    (hne : upd.Email ≠ "") (hdiff : upd.Email ≠ user.Email)
    (h : ∃ r ∈ w.users, r.Email = upd.Email) :
    UpdateProfile lib env c (.ok upd) w =
      (errorJSON StatusBadRequest "Email already registered",
        (w.log .selectUsers).log .selectUsers) := by
  obtain ⟨x, hx⟩ := FirstUserByEmail_some upd.Email (w.log .selectUsers) h
  simp only [UpdateProfile, hid, FirstUser_eq id w user hu]
  by_cases hn : upd.Name = "" <;> simp [hn, hne, hdiff, hx]

theorem UpdateProfile_reaches_save (lib : Lib) (env : Env) (c : Context)
    (upd : UpdateProfileData) (w : World) (id : Nat) (user : User)
    (hid : c.userId = some id) (hu : (DB.FirstUser id w).1 = some user)
    (hfree : upd.Email = "" ∨ upd.Email = user.Email ∨ ∀ r ∈ w.users, r.Email ≠ upd.Email) :
    UpdateProfile lib env c (.ok upd) w =
      match DB.SaveUser lib env
          { ID := user.ID
            Name := if upd.Name ≠ "" then upd.Name else user.Name
            Email := if upd.Email ≠ "" then upd.Email else user.Email
            Password := if upd.Password ≠ "" then upd.Password else user.Password
            ImagePath := user.ImagePath
            CreatedAt := user.CreatedAt
            UpdatedAt := user.UpdatedAt }
          (if upd.Email ≠ "" ∧ upd.Email ≠ user.Email then
            (w.log .selectUsers).log .selectUsers else w.log .selectUsers) with
      | (.error _, w) => (errorJSON StatusInternalServerError "Failed to update profile", w)
      | (.ok user, w) =>
        ({ status := StatusOK, body := [("user", .userResponse user.ToResponse)] }, w) := by
  simp only [UpdateProfile, hid, FirstUser_eq id w user hu]
  by_cases he : upd.Email = ""
  · by_cases hn : upd.Name = "" <;> by_cases hp : upd.Password = "" <;> simp [hn, hp, he]
  · by_cases hs : upd.Email = user.Email
    · by_cases hn : upd.Name = "" <;> by_cases hp : upd.Password = "" <;>
        simp [hn, hp, he, hs]
    · have hfresh : ∀ r ∈ (w.log .selectUsers).users, r.Email ≠ upd.Email := by
        rcases hfree with h | h | h
        · exact absurd h he
        · exact absurd h hs
        · exact h
      have hx := FirstUserByEmail_none upd.Email (w.log .selectUsers) hfresh
      by_cases hn : upd.Name = "" <;> by_cases hp : upd.Password = "" <;>
        simp [hn, hp, he, hs, hx]


theorem SaveUser_ok (lib : Lib) (env : Env) (u : User) (w : World) (hz : u.ID ≠ 0)
    (hsave : env.saveFails = false) (hrow : ∃ r ∈ w.users, r.ID = u.ID)
    (huniq : ∀ r ∈ w.users, r.ID ≠ u.ID → r.Email ≠ u.Email) :
    DB.SaveUser lib env u w =
      (.ok { u with UpdatedAt := env.now },
        { w.log (.saveUser u) with
          users := w.users.map
            (fun r => if r.ID = u.ID then { u with UpdatedAt := env.now } else r) }) := by
  obtain ⟨r, hr, hrid⟩ := hrow
  have hany : (w.users.any fun r => r.ID == u.ID) = true :=
    List.any_eq_true.2 ⟨r, hr, by simp [hrid]⟩
  have hno : (w.users.any fun r => r.ID != u.ID && r.Email == u.Email) = false := by
    rw [List.any_eq_false]
    intro x hx
    by_cases hxid : x.ID = u.ID
    · simp [hxid]
    · simp [hxid, huniq x hx hxid]
  simp [DB.SaveUser, hz, hsave, World.log, hany, hno, BeforeUpdate_of_Save]

theorem email_owner_unique (w : World) (hw : w.wf) (a b : User) (ha : a ∈ w.users)
    (hb : b ∈ w.users) (he : a.Email = b.Email) : a = b :=
  List.inj_on_of_nodup_map hw.2.2.1 ha hb he

theorem FirstUser_after_replace (id : Nat) (w w1 : World) (old new : User)
    (hold : old ∈ w.users) (hoid : old.ID = id) (hnid : new.ID = id)
    (hw1 : w1.users = w.users.map (fun r => if r.ID = id then new else r)) :
    (DB.FirstUser id w1).1 = some new := by
  simp only [DB.FirstUser, hw1]
  apply First_eq_of_forall
  · intro hnil
    have hin : new ∈ List.filter (fun r => r.ID == id)
        (List.map (fun r => if r.ID = id then new else r) w.users) := by
      rw [List.mem_filter]
      exact ⟨List.mem_map.2 ⟨old, hold, by simp [hoid]⟩, by simp [hnid]⟩
    rw [hnil] at hin
    simp at hin
  · intro y hy
    rw [List.mem_filter, List.mem_map] at hy
    obtain ⟨⟨r, -, hr⟩, hyid⟩ := hy
    by_cases hrid : r.ID = id
    · simpa [hrid] using hr.symm
    · simp only [hrid, if_false] at hr
      subst hr
      exact absurd (by simpa using hyid) hrid

/-- C4: email uniqueness.  On a database that satisfies its constraints
(unique non-zero keys, unique emails), `Register` and `UpdateProfile` leave
one that satisfies them, whatever the request.  `Register` with an email
that a stored user has responds 400 (with "Email already registered" once the
payload passes binding), issues no INSERT and leaves the table as it was, so
exactly one record has that email.  `UpdateProfile` supplying the email of a
different user responds 400 "Email already registered" after the two lookups
and saves nothing, while supplying the user's own current email reaches
`DB.Save` without an email lookup and, the write not failing, responds 200
with the stored row keeping that email. -/
theorem email_uniqueness_invariant (lib : Lib) (env : Env) (w : World) (hwf : w.wf) :
    (∀ body, (Register lib env body w).2.wf) ∧
    (∀ c body, (UpdateProfile lib env c body w).2.wf) ∧
    (∀ u : User, (∃ r ∈ w.users, r.Email = u.Email) →
      (Register lib env (.ok u) w).1.status = StatusBadRequest ∧
      (u.binding lib = none →
        (Register lib env (.ok u) w).1
          = errorJSON StatusBadRequest "Email already registered") ∧
      (∀ x, Event.createUser x ∉ (Register lib env (.ok u) w).2.trace.drop w.trace.length) ∧
      (Register lib env (.ok u) w).2.users = w.users ∧
      ((Register lib env (.ok u) w).2.users.map User.Email).count u.Email = 1) ∧
    (∀ (c : Context) (upd : UpdateProfileData) (id : Nat) (user r : User),
      c.userId = some id → (DB.FirstUser id w).1 = some user →
      r ∈ w.users → r.ID ≠ user.ID → upd.Email ≠ "" → r.Email = upd.Email →
      UpdateProfile lib env c (.ok upd) w =
        (errorJSON StatusBadRequest "Email already registered",
          { w with trace := w.trace ++ [.selectUsers, .selectUsers] })) ∧
    (∀ (c : Context) (upd : UpdateProfileData) (id : Nat) (user : User),
      c.userId = some id → (DB.FirstUser id w).1 = some user →
      upd.Email = user.Email → env.saveFails = false →
      (UpdateProfile lib env c (.ok upd) w).1.status = StatusOK ∧
      (∃ saved : User, saved.ID = user.ID ∧ saved.Email = user.Email ∧
        (DB.FirstUser id (UpdateProfile lib env c (.ok upd) w).2).1 = some saved ∧
        (UpdateProfile lib env c (.ok upd) w).2.trace
          = w.trace ++ [.selectUsers, .saveUser { saved with UpdatedAt := user.UpdatedAt }])) := by
  refine ⟨fun body => Register_wf lib env body w hwf,
    fun c body => UpdateProfile_wf lib env c body w hwf, ?_, ?_, ?_⟩
  · intro u h
    obtain ⟨h1, h2, h3, h4⟩ := Register_duplicate lib env u w h
    refine ⟨h1, h4, h3, h2, ?_⟩
    rw [h2]
    obtain ⟨r, hr, hre⟩ := h
    exact List.count_eq_one_of_mem hwf.2.2.1 (List.mem_map.2 ⟨r, hr, hre⟩)
  · intro c upd id user r hid hu hr hrid hne hre
    obtain ⟨hmem, -⟩ := FirstUser_found id w user hu
    have hdiff : upd.Email ≠ user.Email := by
      intro h
      have := email_owner_unique w hwf r user hr hmem (by rw [hre, h])
      exact hrid (by rw [this])
    rw [UpdateProfile_conflict lib env c upd w id user hid hu hne hdiff ⟨r, hr, hre⟩]
    simp [World.log]
  · intro c upd id user hid hu hown hsave
    obtain ⟨hmem, huid⟩ := FirstUser_found id w user hu
    have hz : user.ID ≠ 0 := hwf.1 user hmem
    have hemail : (if upd.Email ≠ "" then upd.Email else user.Email) = user.Email := by
      by_cases he : upd.Email = ""
      · simp [he]
      · simp [he, hown]
    have hcond : ¬ (upd.Email ≠ "" ∧ upd.Email ≠ user.Email) := fun h => h.2 hown
    rw [UpdateProfile_reaches_save lib env c upd w id user hid hu (Or.inr (Or.inl hown))]
    simp only [hcond, if_false, hemail]
    obtain ⟨m, hm⟩ : ∃ m : User, m =
        { ID := user.ID, Name := if upd.Name ≠ "" then upd.Name else user.Name
          Email := user.Email
          Password := if upd.Password ≠ "" then upd.Password else user.Password
          ImagePath := user.ImagePath, CreatedAt := user.CreatedAt
          UpdatedAt := user.UpdatedAt } := ⟨_, rfl⟩
    rw [← hm]
    have hmid : m.ID = user.ID := by rw [hm]
    have hme : m.Email = user.Email := by rw [hm]
    have hmu : m.UpdatedAt = user.UpdatedAt := by rw [hm]
    rw [SaveUser_ok lib env m (w.log .selectUsers) (by rw [hmid]; exact hz) hsave
      ⟨user, hmem, hmid.symm⟩
      (fun r hr hrid hre => hrid (by
        rw [hme] at hre
        rw [email_owner_unique w hwf r user hr hmem hre, hmid]))]
    refine ⟨rfl, ⟨{ m with UpdatedAt := env.now }, hmid, hme, ?_, ?_⟩⟩
    · exact FirstUser_after_replace id (w.log .selectUsers) _ user _ hmem huid
        (by rw [← huid]; exact hmid) (by simp only [hmid, huid])
    · simp only [World.log, List.append_assoc, List.singleton_append]
      rw [← hmu]


theorem email_uniqueness_invariant_witness :
    demoShop.wf ∧
    (Register demoLib demoEnv (.ok { demoSignup with Name := "Another Ana" }) demoShop).1
      = errorJSON StatusBadRequest "Email already registered" ∧
    (Register demoLib demoEnv (.ok { demoSignup with Name := "Another Ana" }) demoShop).2.users
      = demoShop.users :=
  have hwf : demoShop.wf := by unfold World.wf; decide
  have h := (email_uniqueness_invariant demoLib demoEnv demoShop hwf).2.2.1
    { demoSignup with Name := "Another Ana" } ⟨demoAna, by decide, by decide⟩
  ⟨hwf, h.2.1 (by decide), h.2.2.2.1⟩

/-! ## What the user handlers put in a success body -/

theorem insertUser_mem (env : Env) (u x : User) (w w1 : World)
    (h : DB.insertUser env u w = (.ok x, w1)) : x ∈ w1.users := by
  by_cases hf : env.createFails = true
  · simp [DB.insertUser, hf] at h
  · by_cases hz : u.ID = 0
    · by_cases hk : (w.users.any fun r => r.ID == w.userSeq + 1) = true
      · simp [DB.insertUser, hf, hz, hk] at h
      · by_cases he : (w.users.any fun r => r.Email == u.Email) = true
        · simp [DB.insertUser, hf, hz, hk, he] at h
        · simp only [DB.insertUser, hf, hz, hk, he, if_true, if_false, Prod.mk.injEq,
            Except.ok.injEq, Bool.false_eq_true] at h
          rw [← h.2, ← h.1]
          simp
    · by_cases hk : (w.users.any fun r => r.ID == u.ID) = true
      · simp [DB.insertUser, hf, hz, hk] at h
      · by_cases he : (w.users.any fun r => r.Email == u.Email) = true
        · simp [DB.insertUser, hf, hz, hk, he] at h
        · simp only [DB.insertUser, hf, hz, hk, he, if_true, if_false, Prod.mk.injEq,
            Except.ok.injEq, Bool.false_eq_true] at h
          rw [← h.2, ← h.1]
          simp

theorem CreateUser_mem (lib : Lib) (env : Env) (u x : User) (w w1 : World)
    (h : DB.CreateUser lib env u w = (.ok x, w1)) : x ∈ w1.users := by
  simp only [DB.CreateUser, User.BeforeCreate] at h
  split at h
  · simp at h
  · exact insertUser_mem env _ x _ w1 h

theorem SaveUser_mem (lib : Lib) (env : Env) (u x : User) (w w1 : World)
    (h : DB.SaveUser lib env u w = (.ok x, w1)) : x ∈ w1.users := by
  by_cases hz : u.ID = 0
  · simp only [DB.SaveUser, hz, if_true, User.BeforeCreate] at h
    split at h
    · simp at h
    · exact insertUser_mem env _ x _ w1 h
  · simp only [DB.SaveUser, hz, if_false, BeforeUpdate_of_Save] at h
    split at h
    · simp at h
    · split at h
      · simp at h
      · split at h
        · rename_i hk
          simp only [Prod.mk.injEq, Except.ok.injEq] at h
          rw [← h.2, ← h.1]
          obtain ⟨r, hr, hrid⟩ := List.any_eq_true.1 hk
          simp only [beq_iff_eq] at hrid
          exact List.mem_map.2 ⟨r, hr, by simp [hrid]⟩
        · exact insertUser_mem env _ x _ w1 h

theorem Register_success (lib : Lib) (env : Env) (body : Except String User) (w : World)
    (h : (Register lib env body w).1.status < 300) :
    ∃ u tok, u ∈ (Register lib env body w).2.users ∧
      (Register lib env body w).1.body
        = [("user", .userResponse u.ToResponse), ("token", .str tok)] := by
  cases hb : ShouldBindUser lib body with
  | error err =>
    simp only [Register, hb, errorJSON] at h
    exact absurd h (by decide)
  | ok user =>
    rcases hf : DB.FirstUserByEmail user.Email w with ⟨found, w1⟩
    cases found with
    | some x =>
      simp only [Register, hb, hf, errorJSON] at h
      exact absurd h (by decide)
    | none =>
      rcases hc : DB.CreateUser lib env user w1 with ⟨res, w2⟩
      cases res with
      | error e =>
        simp only [Register, hb, hf, hc, errorJSON] at h
        exact absurd h (by decide)
      | ok created =>
        cases ht : env.GenerateJWT created.ID with
        | error e =>
          simp only [Register, hb, hf, hc, ht, errorJSON] at h
          exact absurd h (by decide)
        | ok tok =>
          simp only [Register, hb, hf, hc, ht]
          exact ⟨created, tok, CreateUser_mem lib env _ _ _ _ hc, rfl⟩

theorem FirstUserByEmail_mem (email : String) (w w1 : World) (x : User)
    (h : DB.FirstUserByEmail email w = (some x, w1)) : x ∈ w.users ∧ w1.users = w.users := by
  simp only [DB.FirstUserByEmail, Prod.mk.injEq] at h
  have := First_mem _ _ _ h.1
  rw [List.mem_filter] at this
  exact ⟨this.1, by rw [← h.2]; rfl⟩

theorem FirstUser_mem (id : Nat) (w w1 : World) (x : User)
    (h : DB.FirstUser id w = (some x, w1)) : x ∈ w.users ∧ w1.users = w.users := by
  simp only [DB.FirstUser, Prod.mk.injEq] at h
  have := First_mem _ _ _ h.1
  rw [List.mem_filter] at this
  exact ⟨this.1, by rw [← h.2]; rfl⟩

theorem Login_success (lib : Lib) (env : Env) (body : Except String LoginData) (w : World)
    (h : (Login lib env body w).1.status < 300) :
    ∃ u tok, u ∈ (Login lib env body w).2.users ∧
      (Login lib env body w).1.body
        = [("user", .userResponse u.ToResponse), ("token", .str tok)] := by
  cases hb : ShouldBindLogin lib body with
  | error err =>
    simp only [Login, hb, errorJSON] at h
    exact absurd h (by decide)
  | ok loginData =>
    rcases hf : DB.FirstUserByEmail loginData.Email w with ⟨found, w1⟩
    cases found with
    | none =>
      simp only [Login, hb, hf, errorJSON] at h
      exact absurd h (by decide)
    | some user =>
      obtain ⟨hm, hw1⟩ := FirstUserByEmail_mem _ _ _ _ hf
      cases hc : user.ComparePassword lib loginData.Password with
      | false =>
        simp only [Login, hb, hf, hc, if_true, errorJSON] at h
        exact absurd h (by decide)
      | true =>
        cases ht : env.GenerateJWT user.ID with
        | error e =>
          simp only [Login, hb, hf, hc, Bool.true_eq_false, if_false, ht, errorJSON] at h
          exact absurd h (by decide)
        | ok tok =>
          simp only [Login, hb, hf, hc, Bool.true_eq_false, if_false, ht]
          exact ⟨user, tok, by rw [hw1]; exact hm, rfl⟩

theorem GetProfile_success (c : Context) (w : World)
    (h : (GetProfile c w).1.status < 300) :
    ∃ u, u ∈ (GetProfile c w).2.users ∧
      (GetProfile c w).1.body = [("user", .userResponse u.ToResponse)] := by
  cases hid : c.userId with
  | none =>
    simp only [GetProfile, hid, errorJSON] at h
    exact absurd h (by decide)
  | some userID =>
    rcases hf : DB.FirstUser userID w with ⟨found, w1⟩
    cases found with
    | none =>
      simp only [GetProfile, hid, hf, errorJSON] at h
      exact absurd h (by decide)
    | some user =>
      obtain ⟨hm, hw1⟩ := FirstUser_mem _ _ _ _ hf
      simp only [GetProfile, hid, hf]
      exact ⟨user, by rw [hw1]; exact hm, rfl⟩

theorem GetUserByID_success (c : Context) (w : World)
    (h : (GetUserByID c w).1.status < 300) :
    ∃ u, u ∈ (GetUserByID c w).2.users ∧
      (GetUserByID c w).1.body = [("user", .userResponse u.ToResponse)] := by
  cases hid : ParseUint c.id with
  | none =>
    simp only [GetUserByID, hid, errorJSON] at h
    exact absurd h (by decide)
  | some id =>
    rcases hf : DB.FirstUser id w with ⟨found, w1⟩
    cases found with
    | none =>
      simp only [GetUserByID, hid, hf, errorJSON] at h
      exact absurd h (by decide)
    | some user =>
      obtain ⟨hm, hw1⟩ := FirstUser_mem _ _ _ _ hf
      simp only [GetUserByID, hid, hf]
      exact ⟨user, by rw [hw1]; exact hm, rfl⟩

theorem GetAllUsers_body (w : World) :
    (GetAllUsers w).1.body = [("users", .userResponses (w.users.map User.ToResponse))] ∧
    (GetAllUsers w).2.users = w.users := by
  simp [GetAllUsers, DB.FindUsers, World.log]


theorem UpdateProfile_shape (lib : Lib) (env : Env) (c : Context)
    (body : Except String UpdateProfileData) (w : World) :
    (∃ s msg, (UpdateProfile lib env c body w).1 = errorJSON s msg ∧ 400 ≤ s) ∨
    (∃ x, x ∈ (UpdateProfile lib env c body w).2.users ∧
      (UpdateProfile lib env c body w).1
        = { status := StatusOK, body := [("user", .userResponse x.ToResponse)] }) := by
  simp only [UpdateProfile]
  split
  · exact Or.inl ⟨_, _, rfl, by decide⟩
  · split
    · exact Or.inl ⟨_, _, rfl, by decide⟩
    · split
      · exact Or.inl ⟨_, _, rfl, by decide⟩
      · split
        · exact Or.inl ⟨_, _, rfl, by decide⟩
        · split
          · exact Or.inl ⟨_, _, rfl, by decide⟩
          · rename_i x w3 h3
            exact Or.inr ⟨x, SaveUser_mem lib env _ _ _ _ h3, rfl⟩

theorem UploadProfileImage_shape (lib : Lib) (env : Env) (c : Context) (w : World) :
    (∃ s msg, (UploadProfileImage lib env c w).1 = errorJSON s msg ∧ 400 ≤ s) ∨
    (∃ x, x ∈ (UploadProfileImage lib env c w).2.users ∧
      (UploadProfileImage lib env c w).1
        = { status := StatusOK, body := [("user", .userResponse x.ToResponse)] }) := by
  simp only [UploadProfileImage]
  split
  · exact Or.inl ⟨_, _, rfl, by decide⟩
  · split
    · exact Or.inl ⟨_, _, rfl, by decide⟩
    · split
      · exact Or.inl ⟨_, _, rfl, by decide⟩
      · split
        · exact Or.inl ⟨_, _, rfl, by decide⟩
        · split
          · exact Or.inl ⟨_, _, rfl, by decide⟩
          · split
            · exact Or.inl ⟨_, _, rfl, by decide⟩
            · rename_i x w3 h3
              exact Or.inr ⟨x, SaveUser_mem lib env _ _ _ _ h3, rfl⟩

theorem success_of_shape (r : Response) (P : Response → Prop)
    (hs : (∃ s msg, r = errorJSON s msg ∧ 400 ≤ s) ∨ P r) (h : r.status < 300) : P r := by
  rcases hs with ⟨s, msg, hr, hge⟩ | hp
  · rw [hr] at h
    simp only [errorJSON] at h
    omega
  · exact hp


/-- C5: `User.ToResponse` does not depend on the password: changing only the
`Password` field leaves the response unchanged, and the response's `ID`,
`Name`, `Email`, `ImagePath`, `CreatedAt` and `UpdatedAt` are the user's.
Every success (2xx) body of `Register`, `Login`, `GetProfile`,
`UpdateProfile`, `UploadProfileImage`, `GetAllUsers` and `GetUserByID`
carries users only as `ToResponse` values of rows of the table: under "user"
the response of one stored user (next to the token for the first two), under
"users" the responses of all rows. -/
theorem ToResponse_hides_password :
    (∀ (u : User) (password : String),
      ({ u with Password := password }).ToResponse = u.ToResponse) ∧
    (∀ u : User, u.ToResponse.ID = u.ID ∧ u.ToResponse.Name = u.Name ∧
      u.ToResponse.Email = u.Email ∧ u.ToResponse.ImagePath = u.ImagePath ∧
      u.ToResponse.CreatedAt = u.CreatedAt ∧ u.ToResponse.UpdatedAt = u.UpdatedAt) ∧
    (∀ lib env body w, (Register lib env body w).1.status < 300 →
      ∃ u tok, u ∈ (Register lib env body w).2.users ∧
        (Register lib env body w).1.body
          = [("user", .userResponse u.ToResponse), ("token", .str tok)]) ∧
    (∀ lib env body w, (Login lib env body w).1.status < 300 →
      ∃ u tok, u ∈ (Login lib env body w).2.users ∧
        (Login lib env body w).1.body
          = [("user", .userResponse u.ToResponse), ("token", .str tok)]) ∧
    (∀ c w, (GetProfile c w).1.status < 300 →
      ∃ u, u ∈ (GetProfile c w).2.users ∧
        (GetProfile c w).1.body = [("user", .userResponse u.ToResponse)]) ∧
    (∀ lib env c body w, (UpdateProfile lib env c body w).1.status < 300 →
      ∃ u, u ∈ (UpdateProfile lib env c body w).2.users ∧
        (UpdateProfile lib env c body w).1.body = [("user", .userResponse u.ToResponse)]) ∧
    (∀ lib env c w, (UploadProfileImage lib env c w).1.status < 300 →
      ∃ u, u ∈ (UploadProfileImage lib env c w).2.users ∧
        (UploadProfileImage lib env c w).1.body = [("user", .userResponse u.ToResponse)]) ∧
    (∀ w, (GetAllUsers w).1.body
        = [("users", .userResponses ((GetAllUsers w).2.users.map User.ToResponse))]) ∧
    (∀ c w, (GetUserByID c w).1.status < 300 →
      ∃ u, u ∈ (GetUserByID c w).2.users ∧
        (GetUserByID c w).1.body = [("user", .userResponse u.ToResponse)]) := by
  refine ⟨fun _ _ => rfl, fun _ => ⟨rfl, rfl, rfl, rfl, rfl, rfl⟩,
    Register_success, Login_success, GetProfile_success, ?_, ?_, ?_, GetUserByID_success⟩
  · intro lib env c body w h
    obtain ⟨x, hx, hr⟩ := success_of_shape _
      (fun r => ∃ x, x ∈ (UpdateProfile lib env c body w).2.users ∧
        r = { status := StatusOK, body := [("user", .userResponse x.ToResponse)] })
      (UpdateProfile_shape lib env c body w) h
    exact ⟨x, hx, by rw [hr]⟩
  · intro lib env c w h
    obtain ⟨x, hx, hr⟩ := success_of_shape _
      (fun r => ∃ x, x ∈ (UploadProfileImage lib env c w).2.users ∧
        r = { status := StatusOK, body := [("user", .userResponse x.ToResponse)] })
      (UploadProfileImage_shape lib env c w) h
    exact ⟨x, hx, by rw [hr]⟩
  · intro w
    obtain ⟨h1, h2⟩ := GetAllUsers_body w
    rw [h1, h2]

theorem ToResponse_hides_password_witness :
    (GetProfile { demoContext with userId := some 1 } demoShop).1.status < 300 ∧
    ∃ u, u ∈ (GetProfile { demoContext with userId := some 1 } demoShop).2.users ∧
      (GetProfile { demoContext with userId := some 1 } demoShop).1.body
        = [("user", .userResponse u.ToResponse)] :=
  ⟨by decide,
    ToResponse_hides_password.2.2.2.2.1 { demoContext with userId := some 1 } demoShop
      (by decide)⟩

/-! ## utils.ValidateFileType and the upload handlers -/

theorem ValidateFileType_loop_none (contentType : String) (allowed : List String) :
    ValidateFileType.loop contentType allowed = none ↔ contentType ∈ allowed := by
  induction allowed with
  | nil => simp [ValidateFileType.loop]
  | cons a rest ih =>
    by_cases h : contentType = a
    · simp [ValidateFileType.loop, h]
    · simp [ValidateFileType.loop, h, ih]

theorem ValidateFileType_loop_some (contentType : String) (allowed : List String)
    (h : contentType ∉ allowed) :
    ValidateFileType.loop contentType allowed = some ("invalid file type: " ++ contentType) := by
  induction allowed with
  | nil => simp [ValidateFileType.loop]
  | cons a rest ih =>
    have h1 : contentType ≠ a := fun e => h (by simp [e])
    have h2 : contentType ∉ rest := fun e => h (List.mem_cons_of_mem _ e)
    simp [ValidateFileType.loop, h1, ih h2]

theorem ValidateFileType_none_iff (file : FileHeader) (allowed : List String) :
    ValidateFileType file allowed = none ↔ file.Get "Content-Type" ∈ allowed := by
  simp only [ValidateFileType]
  exact ValidateFileType_loop_none _ _

theorem ValidateFileType_rejected (file : FileHeader) (allowed : List String)
    (h : ValidateFileType file allowed ≠ none) :
    ValidateFileType file allowed = some ("invalid file type: " ++ file.Get "Content-Type") := by
  have hn : file.Get "Content-Type" ∉ allowed := fun hm =>
    h ((ValidateFileType_none_iff file allowed).2 hm)
  simp only [ValidateFileType]
  exact ValidateFileType_loop_some _ _ hn

theorem UploadProductImage_rejected (env : Env) (c : Context) (w : World) (file : FileHeader)
    (hfile : c.image = some file) (hrej : ValidateFileType file allowedTypes ≠ none) :
    (UploadProductImage env c w).2.files = w.files ∧
    (UploadProductImage env c w).2.products = w.products ∧
    (UploadProductImage env c w).2.users = w.users ∧
    ((UploadProductImage env c w).2.trace = w.trace ∨
      (UploadProductImage env c w).2.trace = w.trace ++ [.selectProducts]) ∧
    (∀ id p, ParseUint c.id = some id → (DB.FirstProduct id w).1 = some p →
      (UploadProductImage env c w).1
        = errorJSON StatusBadRequest ("invalid file type: " ++ file.Get "Content-Type")) := by
  have hv := ValidateFileType_rejected file allowedTypes hrej
  cases hid : ParseUint c.id with
  | none => simp [UploadProductImage, hid]
  | some id =>
    cases hf : First Product.ID (w.products.filter (fun r => r.ID == id)) with
    | none =>
      simp only [UploadProductImage, hid, DB.FirstProduct, hf, World.log]
      refine ⟨trivial, trivial, trivial, Or.inr trivial, ?_⟩
      intro id2 p h1 h2
      simp only [Option.some.injEq] at h1
      subst h1
      rw [hf] at h2
      simp at h2
    | some p => simp [UploadProductImage, hid, DB.FirstProduct, hf, World.log, hfile, hv]

theorem UploadProfileImage_rejected (lib : Lib) (env : Env) (c : Context) (w : World)
    (file : FileHeader)
    (hfile : c.image = some file) (hrej : ValidateFileType file allowedTypes ≠ none) :
    (UploadProfileImage lib env c w).2.files = w.files ∧
    (UploadProfileImage lib env c w).2.products = w.products ∧
    (UploadProfileImage lib env c w).2.users = w.users ∧
    ((UploadProfileImage lib env c w).2.trace = w.trace ∨
      (UploadProfileImage lib env c w).2.trace = w.trace ++ [.selectUsers]) ∧
    (∀ id u, c.userId = some id → (DB.FirstUser id w).1 = some u →
      (UploadProfileImage lib env c w).1
        = errorJSON StatusBadRequest ("invalid file type: " ++ file.Get "Content-Type")) := by
  have hv := ValidateFileType_rejected file allowedTypes hrej
  cases hid : c.userId with
  | none => simp [UploadProfileImage, hid]
  | some id =>
    cases hf : First User.ID (w.users.filter (fun r => r.ID == id)) with
    | none =>
      simp only [UploadProfileImage, hid, DB.FirstUser, hf, World.log]
      refine ⟨trivial, trivial, trivial, Or.inr trivial, ?_⟩
      intro id2 p h1 h2
      simp only [Option.some.injEq] at h1
      subst h1
      rw [hf] at h2
      simp at h2
    | some p => simp [UploadProfileImage, hid, DB.FirstUser, hf, World.log, hfile, hv]


/-- C6: `ValidateFileType` returns no error exactly when the declared
Content-Type equals some element of `allowedTypes`; with the allow-list of
both upload handlers "application/pdf" is rejected and "image/png" accepted.
A request whose file is rejected leaves files and tables as they were, with
at most the record lookup performed (no file deleted or stored, no record
saved), and, the record being found, is answered 400 with the validation
error. -/
theorem ValidateFileType_allow_list :
    (∀ (file : FileHeader) (allowed : List String),
      ValidateFileType file allowed = none ↔ file.Get "Content-Type" ∈ allowed) ∧
    (∀ file : FileHeader, file.Get "Content-Type" = "application/pdf" →
      ValidateFileType file allowedTypes ≠ none) ∧
    (∀ file : FileHeader, file.Get "Content-Type" = "image/png" →
      ValidateFileType file allowedTypes = none) ∧
    (∀ (env : Env) (c : Context) (w : World) (file : FileHeader),
      c.image = some file → ValidateFileType file allowedTypes ≠ none →
      (UploadProductImage env c w).2.files = w.files ∧
      (UploadProductImage env c w).2.products = w.products ∧
      (UploadProductImage env c w).2.users = w.users ∧
      ((UploadProductImage env c w).2.trace = w.trace ∨
        (UploadProductImage env c w).2.trace = w.trace ++ [.selectProducts]) ∧
      (∀ id p, ParseUint c.id = some id → (DB.FirstProduct id w).1 = some p →
        (UploadProductImage env c w).1
          = errorJSON StatusBadRequest ("invalid file type: " ++ file.Get "Content-Type"))) ∧
    (∀ (lib : Lib) (env : Env) (c : Context) (w : World) (file : FileHeader),
      c.image = some file → ValidateFileType file allowedTypes ≠ none →
      (UploadProfileImage lib env c w).2.files = w.files ∧
      (UploadProfileImage lib env c w).2.products = w.products ∧
      (UploadProfileImage lib env c w).2.users = w.users ∧
      ((UploadProfileImage lib env c w).2.trace = w.trace ∨
        (UploadProfileImage lib env c w).2.trace = w.trace ++ [.selectUsers]) ∧
      (∀ id u, c.userId = some id → (DB.FirstUser id w).1 = some u →
        (UploadProfileImage lib env c w).1
          = errorJSON StatusBadRequest ("invalid file type: " ++ file.Get "Content-Type"))) := by
  refine ⟨ValidateFileType_none_iff, ?_, ?_, UploadProductImage_rejected,
    UploadProfileImage_rejected⟩
  · intro file h hv
    rw [ValidateFileType_none_iff, h] at hv
    revert hv
    decide
  · intro file h
    rw [ValidateFileType_none_iff, h]
    decide

theorem ValidateFileType_allow_list_witness :
    ({ demoContext with id := "2", image := some demoPdf } : Context).image = some demoPdf ∧
    ValidateFileType demoPdf allowedTypes ≠ none ∧
    (UploadProductImage demoEnv { demoContext with id := "2", image := some demoPdf }
        demoShop).2.files = demoShop.files ∧
    (UploadProductImage demoEnv { demoContext with id := "2", image := some demoPdf }
        demoShop).1 = errorJSON StatusBadRequest "invalid file type: application/pdf" :=
  have h := ValidateFileType_allow_list.2.2.2.1 demoEnv
    { demoContext with id := "2", image := some demoPdf } demoShop demoPdf rfl (by decide)
  ⟨rfl, by decide, h.1, h.2.2.2.2 2 demoLamp (by decide) (by decide)⟩

/-! ## Effects of the file operations and of `Save` -/

theorem osRemove_frame (env : Env) (name : String) (w : World) :
    (osRemove env name w).2.users = w.users ∧
    (osRemove env name w).2.products = w.products ∧
    (osRemove env name w).2.trace = w.trace := by
  unfold osRemove
  split
  · split <;> exact ⟨rfl, rfl, rfl⟩
  · split
    · exact ⟨rfl, rfl, rfl⟩
    · split
      · exact ⟨rfl, rfl, rfl⟩
      · split <;> exact ⟨rfl, rfl, rfl⟩
  · exact ⟨rfl, rfl, rfl⟩
  · split <;> exact ⟨rfl, rfl, rfl⟩
  · exact ⟨rfl, rfl, rfl⟩
  · exact ⟨rfl, rfl, rfl⟩

theorem osRemove_files (env : Env) (name : String) (w : World) :
    (osRemove env name w).2.files = w.files ∨
    ∃ entry, lookup env.dirs w.files name = .file entry ∧ env.removeFails = false ∧
      (osRemove env name w).2.files = w.files.filter (fun f => f ≠ entry) := by
  unfold osRemove
  split
  · rename_i entry h
    cases hr : env.removeFails with
    | true => exact Or.inl (by simp)
    | false => exact Or.inr ⟨entry, h, rfl, by simp⟩
  · split
    · exact Or.inl rfl
    · split
      · exact Or.inl rfl
      · split <;> exact Or.inl rfl
  · exact Or.inl rfl
  · split <;> exact Or.inl rfl
  · exact Or.inl rfl
  · exact Or.inl rfl

theorem DeleteFile_eq (env : Env) (filePath : String) (w : World) :
    DeleteFile env filePath w =
      if lookup env.dirs w.files (trimLeadingSlash filePath) = .notExist then
        (none, w.log (.DeleteFile filePath))
      else osRemove env (trimLeadingSlash filePath) (w.log (.DeleteFile filePath)) := rfl

theorem DeleteFile_frame (env : Env) (filePath : String) (w : World) :
    (DeleteFile env filePath w).2.users = w.users ∧
    (DeleteFile env filePath w).2.products = w.products ∧
    (DeleteFile env filePath w).2.trace = w.trace ++ [.DeleteFile filePath] := by
  rw [DeleteFile_eq]
  split
  · exact ⟨rfl, rfl, rfl⟩
  · exact osRemove_frame env _ (w.log (.DeleteFile filePath))

/-- The regular files after `DeleteFile`: all of them, or all but the one the path
names when `os.Remove` unlinks it. -/
theorem DeleteFile_files (env : Env) (filePath : String) (w : World) :
    (DeleteFile env filePath w).2.files = w.files ∨
    ∃ entry, lookup env.dirs w.files (trimLeadingSlash filePath) = .file entry ∧
      env.removeFails = false ∧
      (DeleteFile env filePath w).2.files = w.files.filter (fun f => f ≠ entry) := by
  rw [DeleteFile_eq]
  split
  · exact Or.inl rfl
  · exact osRemove_files env _ (w.log (.DeleteFile filePath))

theorem DeleteFile_subset (env : Env) (filePath : String) (w : World) :
    ∀ f ∈ (DeleteFile env filePath w).2.files, f ∈ w.files := by
  intro f hf
  rcases DeleteFile_files env filePath w with h | ⟨entry, -, -, h⟩
  · rw [h] at hf
    exact hf
  · rw [h] at hf
    exact (List.mem_filter.1 hf).1

theorem lookup_stored (dirs files : List String) (name : String) (h : name ∈ files) :
    lookup dirs files name = .file name := by
  simp only [lookup, h, if_true]

/-- A path that is stored as it stands is unlinked, and no other. -/
theorem DeleteFile_stored (env : Env) (filePath : String) (w : World)
    (h : trimLeadingSlash filePath ∈ w.files) (hr : env.removeFails = false) :
    DeleteFile env filePath w =
      (none, { w.log (.DeleteFile filePath) with
        files := w.files.filter (fun f => f ≠ trimLeadingSlash filePath) }) := by
  have hl : lookup env.dirs (w.log (.DeleteFile filePath)).files (trimLeadingSlash filePath)
      = .file (trimLeadingSlash filePath) := lookup_stored _ _ _ h
  have hl2 : lookup env.dirs w.files (trimLeadingSlash filePath)
      = .file (trimLeadingSlash filePath) := lookup_stored _ _ _ h
  rw [DeleteFile_eq, hl2, if_neg (by simp)]
  simp only [osRemove, hl, hr, Bool.false_eq_true, if_false]
  rfl

theorem DeleteFile_removes (env : Env) (filePath : String) (w : World)
    (hr : env.removeFails = false) :
    trimLeadingSlash filePath ∉ (DeleteFile env filePath w).2.files := by
  by_cases h : trimLeadingSlash filePath ∈ w.files
  · rw [DeleteFile_stored env filePath w h hr]
    simp
  · exact fun hin => h (DeleteFile_subset env filePath w _ hin)

/-- The path under which `UploadFile` writes. -/
theorem UploadFile_eq (env : Env) (file : FileHeader) (folder : String) (w : World) :
    UploadFile env file folder w =
      if env.mkdirFails = true then
        (.error "failed to create directory", w.log (.UploadFile file folder))
      else if env.saveFileFails = true then
        (.error "failed to save file", w.log (.UploadFile file folder))
      else
        (.ok ("/" ++ filepathJoin (filepathJoin "uploads" folder)
            (env.uuid ++ filepathExt file.Filename)),
          { w.log (.UploadFile file folder) with
            files :=
              if filepathJoin (filepathJoin "uploads" folder)
                  (env.uuid ++ filepathExt file.Filename) ∈ w.files then w.files
              else w.files ++ [filepathJoin (filepathJoin "uploads" folder)
                  (env.uuid ++ filepathExt file.Filename)] }) := by
  simp only [UploadFile, World.log]

theorem SaveProduct_frame (env : Env) (p : Product) (w : World) :
    (DB.SaveProduct env p w).2.users = w.users ∧
    (DB.SaveProduct env p w).2.files = w.files := by
  simp only [DB.SaveProduct, Product.BeforeCreate, DB.insertProduct]
  repeat' split
  all_goals exact ⟨rfl, rfl⟩

theorem SaveProduct_error (env : Env) (p : Product) (w : World) (e : String) (w1 : World)
    (h : DB.SaveProduct env p w = (.error e, w1)) : w1.products = w.products := by
  simp only [DB.SaveProduct, Product.BeforeCreate, DB.insertProduct] at h
  repeat' split at h
  all_goals first
    | (simp only [Prod.mk.injEq] at h; rw [← h.2]; rfl)
    | simp at h

theorem SaveUser_frame (lib : Lib) (env : Env) (u : User) (w : World) :
    (DB.SaveUser lib env u w).2.products = w.products ∧
    (DB.SaveUser lib env u w).2.files = w.files ∧
    (DB.SaveUser lib env u w).2.trace = w.trace ++ [.saveUser u] := by
  simp only [DB.SaveUser, User.BeforeCreate, DB.insertUser, BeforeUpdate_of_Save]
  repeat' split
  all_goals exact ⟨rfl, rfl, rfl⟩

theorem SaveUser_error (lib : Lib) (env : Env) (u : User) (w : World) (e : String)
    (w1 : World) (h : DB.SaveUser lib env u w = (.error e, w1)) : w1.users = w.users := by
  simp only [DB.SaveUser, User.BeforeCreate, DB.insertUser, BeforeUpdate_of_Save] at h
  repeat' split at h
  all_goals first
    | (simp only [Prod.mk.injEq] at h; rw [← h.2]; rfl)
    | simp at h


theorem UploadFile_spec (env : Env) (file : FileHeader) (folder : String) (w : World) :
    (UploadFile env file folder w).2.trace = w.trace ++ [.UploadFile file folder] ∧
    (UploadFile env file folder w).2.products = w.products ∧
    (UploadFile env file folder w).2.users = w.users ∧
    (∀ e, (UploadFile env file folder w).1 = .error e →
      (UploadFile env file folder w).2.files = w.files) ∧
    (∀ path, (UploadFile env file folder w).1 = .ok path →
      env.mkdirFails = false ∧ env.saveFileFails = false ∧
      path = "/" ++ filepathJoin (filepathJoin "uploads" folder)
        (env.uuid ++ filepathExt file.Filename) ∧
      ∀ f ∈ (UploadFile env file folder w).2.files,
        f ∈ w.files ∨ f = filepathJoin (filepathJoin "uploads" folder)
          (env.uuid ++ filepathExt file.Filename)) := by
  rw [UploadFile_eq]
  cases hm : env.mkdirFails with
  | true => simp [World.log]
  | false =>
    cases hs : env.saveFileFails with
    | true => simp [World.log]
    | false =>
      simp only [Bool.false_eq_true, if_false, World.log]
      refine ⟨trivial, trivial, trivial, ?_, ?_⟩
      · intro e he
        simp at he
      · intro path hpath
        simp only [Except.ok.injEq] at hpath
        refine ⟨trivial, trivial, hpath.symm, ?_⟩
        intro f hf
        split at hf
        · exact Or.inl hf
        · rcases List.mem_append.1 hf with h | h
          · exact Or.inl h
          · exact Or.inr (by simpa using h)

theorem UploadProductImage_eq (env : Env) (c : Context) (w : World) (id : Nat) (p : Product)
    (file : FileHeader) (hid : ParseUint c.id = some id)
    (hp : (DB.FirstProduct id w).1 = some p) (hfile : c.image = some file)
    (hok : ValidateFileType file allowedTypes = none) :
    UploadProductImage env c w =
      match UploadFile env file "products"
          (if p.ImagePath ≠ "" then (DeleteFile env p.ImagePath (w.log .selectProducts)).2
            else w.log .selectProducts) with
      | (.error _, w) => (errorJSON StatusInternalServerError "Failed to upload image", w)
      | (.ok imagePath, w) =>
        match DB.SaveProduct env { p with ImagePath := imagePath } w with
        | (.error _, w) =>
          (errorJSON StatusInternalServerError "Failed to update product", w)
        | (.ok product, w) =>
          ({ status := StatusOK
             body := [("product", .productResponse product.ToResponse)] }, w) := by
  simp only [DB.FirstProduct] at hp
  simp only [UploadProductImage, hid, DB.FirstProduct, hp, hfile, hok]

theorem UploadProductImage_deletes_first (env : Env) (c : Context) (w : World) (id : Nat)
    (p : Product) (file : FileHeader) (hid : ParseUint c.id = some id)
    (hp : (DB.FirstProduct id w).1 = some p) (hfile : c.image = some file)
    (hok : ValidateFileType file allowedTypes = none) (hprev : p.ImagePath ≠ "") :
    (∃ rest, (UploadProductImage env c w).2.trace
        = w.trace ++ [.selectProducts, .DeleteFile p.ImagePath, .UploadFile file "products"]
          ++ rest ∧
      (rest = [] ∨ ∃ q, rest = [.saveProduct q])) ∧
    ((UploadProductImage env c w).1.status = StatusInternalServerError →
      (UploadProductImage env c w).2.products = w.products ∧
      (env.removeFails = false →
        trimLeadingSlash p.ImagePath ∈ (UploadProductImage env c w).2.files →
        env.mkdirFails = false ∧ env.saveFileFails = false ∧
        trimLeadingSlash p.ImagePath = filepathJoin (filepathJoin "uploads" "products")
          (env.uuid ++ filepathExt file.Filename))) := by
  rw [UploadProductImage_eq env c w id p file hid hp hfile hok]
  simp only [hprev, ne_eq, not_false_eq_true, if_true]
  obtain ⟨-, hdp, hdt⟩ := DeleteFile_frame env p.ImagePath (w.log .selectProducts)
  have hdf := DeleteFile_removes env p.ImagePath (w.log .selectProducts)
  obtain ⟨W0, hW0⟩ : ∃ W0, W0 = (DeleteFile env p.ImagePath (w.log .selectProducts)).2 :=
    ⟨_, rfl⟩
  rw [← hW0] at hdp hdt hdf ⊢
  obtain ⟨hut, hup, -, hue, huo⟩ := UploadFile_spec env file "products" W0
  have htr : W0.trace ++ [Event.UploadFile file "products"]
      = w.trace ++ [.selectProducts, .DeleteFile p.ImagePath, .UploadFile file "products"] := by
    rw [hdt]
    simp [World.log]
  rcases hU : UploadFile env file "products" W0 with ⟨res, W1⟩
  rw [hU] at hut hup hue huo
  simp only at hut hup hue huo
  cases res with
  | error e =>
    simp only
    refine ⟨⟨[], by rw [hut, htr]; simp, Or.inl rfl⟩, fun _ => ⟨by rw [hup, hdp]; rfl, ?_⟩⟩
    intro hr hin
    rw [hue e rfl] at hin
    exact absurd hin (hdf hr)
  | ok path =>
    obtain ⟨hmk, hsv, hpath, hfiles⟩ := huo path rfl
    simp only
    have hst := SaveProduct_trace env { p with ImagePath := path } W1
    obtain ⟨-, hsf⟩ := SaveProduct_frame env { p with ImagePath := path } W1
    rcases hS : DB.SaveProduct env { p with ImagePath := path } W1 with ⟨res2, W2⟩
    rw [hS] at hst hsf
    simp only at hst hsf
    have htr2 : W2.trace = w.trace ++
        [.selectProducts, .DeleteFile p.ImagePath, .UploadFile file "products"] ++
        [.saveProduct { p with ImagePath := path }] := by
      rw [hst, hut, htr]
    cases res2 with
    | error e =>
      simp only
      refine ⟨⟨_, htr2, Or.inr ⟨_, rfl⟩⟩, fun _ => ⟨?_, ?_⟩⟩
      · rw [SaveProduct_error env _ W1 e W2 hS, hup, hdp]
        rfl
      · intro hr hin
        rw [hsf] at hin
        rcases hfiles _ hin with h | h
        · exact absurd h (hdf hr)
        · exact ⟨hmk, hsv, h⟩
    | ok q =>
      simp only
      refine ⟨⟨_, htr2, Or.inr ⟨_, rfl⟩⟩, fun h => ?_⟩
      exact absurd h (by decide)


theorem UploadProfileImage_eq (lib : Lib) (env : Env) (c : Context) (w : World) (id : Nat)
    (u : User) (file : FileHeader) (hid : c.userId = some id)
    (hu : (DB.FirstUser id w).1 = some u) (hfile : c.image = some file)
    (hok : ValidateFileType file allowedTypes = none) :
    UploadProfileImage lib env c w =
      match UploadFile env file "users"
          (if u.ImagePath ≠ "" then (DeleteFile env u.ImagePath (w.log .selectUsers)).2
            else w.log .selectUsers) with
      | (.error _, w) => (errorJSON StatusInternalServerError "Failed to upload image", w)
      | (.ok imagePath, w) =>
        match DB.SaveUser lib env { u with ImagePath := imagePath } w with
        | (.error _, w) =>
          (errorJSON StatusInternalServerError "Failed to update profile", w)
        | (.ok user, w) =>
          ({ status := StatusOK, body := [("user", .userResponse user.ToResponse)] }, w) := by
  simp only [UploadProfileImage, hid, FirstUser_eq id w u hu, hfile, hok]

theorem UploadProfileImage_deletes_first (lib : Lib) (env : Env) (c : Context) (w : World)
    (id : Nat) (u : User) (file : FileHeader) (hid : c.userId = some id)
    (hu : (DB.FirstUser id w).1 = some u) (hfile : c.image = some file)
    (hok : ValidateFileType file allowedTypes = none) (hprev : u.ImagePath ≠ "") :
    (∃ rest, (UploadProfileImage lib env c w).2.trace
        = w.trace ++ [.selectUsers, .DeleteFile u.ImagePath, .UploadFile file "users"]
          ++ rest ∧
      (rest = [] ∨ ∃ q, rest = [.saveUser q])) ∧
    ((UploadProfileImage lib env c w).1.status = StatusInternalServerError →
      (UploadProfileImage lib env c w).2.users = w.users ∧
      (env.removeFails = false →
        trimLeadingSlash u.ImagePath ∈ (UploadProfileImage lib env c w).2.files →
        env.mkdirFails = false ∧ env.saveFileFails = false ∧
        trimLeadingSlash u.ImagePath = filepathJoin (filepathJoin "uploads" "users")
          (env.uuid ++ filepathExt file.Filename))) := by
  rw [UploadProfileImage_eq lib env c w id u file hid hu hfile hok]
  simp only [hprev, ne_eq, not_false_eq_true, if_true]
  obtain ⟨hdu, -, hdt⟩ := DeleteFile_frame env u.ImagePath (w.log .selectUsers)
  have hdf := DeleteFile_removes env u.ImagePath (w.log .selectUsers)
  obtain ⟨W0, hW0⟩ : ∃ W0, W0 = (DeleteFile env u.ImagePath (w.log .selectUsers)).2 :=
    ⟨_, rfl⟩
  rw [← hW0] at hdu hdt hdf ⊢
  obtain ⟨hut, -, huu, hue, huo⟩ := UploadFile_spec env file "users" W0
  have htr : W0.trace ++ [Event.UploadFile file "users"]
      = w.trace ++ [.selectUsers, .DeleteFile u.ImagePath, .UploadFile file "users"] := by
    rw [hdt]
    simp [World.log]
  rcases hU : UploadFile env file "users" W0 with ⟨res, W1⟩
  rw [hU] at hut huu hue huo
  simp only at hut huu hue huo
  cases res with
  | error e =>
    simp only
    refine ⟨⟨[], by rw [hut, htr]; simp, Or.inl rfl⟩, fun _ => ⟨by rw [huu, hdu]; rfl, ?_⟩⟩
    intro hr hin
    rw [hue e rfl] at hin
    exact absurd hin (hdf hr)
  | ok path =>
    obtain ⟨hmk, hsv, hpath, hfiles⟩ := huo path rfl
    simp only
    obtain ⟨-, hsf, hst⟩ := SaveUser_frame lib env { u with ImagePath := path } W1
    rcases hS : DB.SaveUser lib env { u with ImagePath := path } W1 with ⟨res2, W2⟩
    rw [hS] at hst hsf
    simp only at hst hsf
    have htr2 : W2.trace = w.trace ++
        [.selectUsers, .DeleteFile u.ImagePath, .UploadFile file "users"] ++
        [.saveUser { u with ImagePath := path }] := by
      rw [hst, hut, htr]
    cases res2 with
    | error e =>
      simp only
      refine ⟨⟨_, htr2, Or.inr ⟨_, rfl⟩⟩, fun _ => ⟨?_, ?_⟩⟩
      · rw [SaveUser_error lib env _ W1 e W2 hS, huu, hdu]
        rfl
      · intro hr hin
        rw [hsf] at hin
        rcases hfiles _ hin with h | h
        · exact absurd h (hdf hr)
        · exact ⟨hmk, hsv, h⟩
    | ok q =>
      simp only
      refine ⟨⟨_, htr2, Or.inr ⟨_, rfl⟩⟩, fun h => ?_⟩
      exact absurd h (by decide)

/-- C7 as stated fails: the product `demoLamp` has its image on disk, storing
the new file fails, the handler responds 500, and the previously referenced
file is gone from storage while the record still references it. -/
theorem image_replace_loses_previous_file :
    demoLamp.ImagePath = "/uploads/products/lamp.png" ∧
    "uploads/products/lamp.png" ∈ demoShop.files ∧
    (UploadProductImage { demoEnv with saveFileFails := true }
        { demoContext with id := "2", image := some demoPng } demoShop).1.status
      = StatusInternalServerError ∧
    "uploads/products/lamp.png" ∉
      (UploadProductImage { demoEnv with saveFileFails := true }
        { demoContext with id := "2", image := some demoPng } demoShop).2.files ∧
    (UploadProductImage { demoEnv with saveFileFails := true }
        { demoContext with id := "2", image := some demoPng } demoShop).2.products
      = demoShop.products ∧
    (UploadProductImage { demoEnv with saveFileFails := true }
        { demoContext with id := "2", image := some demoPng } demoShop).2.trace
      = [.selectProducts, .DeleteFile "/uploads/products/lamp.png",
          .UploadFile demoPng "products"] := by
  decide


/-- C7, amended: in `UploadProductImage` and `UploadProfileImage`, for a
record with a non-empty previous `ImagePath` and an upload that passes
validation, `DeleteFile` is called on the previous path before the new file
is stored and before the record is saved (the effects are: lookup,
`DeleteFile` previous, `UploadFile`, then at most one `Save`).  So when the
handler responds 500 the table is unchanged (the record still references the
previous path) while, its removal not failing, the previous file is no
longer in storage, unless the new file was stored under that very path. -/
theorem image_replace_deletes_previous_first (lib : Lib) (env : Env) (c : Context)
    (w : World) (file : FileHeader) (hfile : c.image = some file)
    (hok : ValidateFileType file allowedTypes = none) :
    (∀ id p, ParseUint c.id = some id → (DB.FirstProduct id w).1 = some p →
      p.ImagePath ≠ "" →
      (∃ rest, (UploadProductImage env c w).2.trace
          = w.trace ++ [.selectProducts, .DeleteFile p.ImagePath, .UploadFile file "products"]
            ++ rest ∧
        (rest = [] ∨ ∃ q, rest = [.saveProduct q])) ∧
      ((UploadProductImage env c w).1.status = StatusInternalServerError →
        (UploadProductImage env c w).2.products = w.products ∧
        (env.removeFails = false →
          trimLeadingSlash p.ImagePath ∈ (UploadProductImage env c w).2.files →
          env.mkdirFails = false ∧ env.saveFileFails = false ∧
          trimLeadingSlash p.ImagePath = filepathJoin (filepathJoin "uploads" "products")
            (env.uuid ++ filepathExt file.Filename)))) ∧
    (∀ id u, c.userId = some id → (DB.FirstUser id w).1 = some u →
      u.ImagePath ≠ "" →
      (∃ rest, (UploadProfileImage lib env c w).2.trace
          = w.trace ++ [.selectUsers, .DeleteFile u.ImagePath, .UploadFile file "users"]
            ++ rest ∧
        (rest = [] ∨ ∃ q, rest = [.saveUser q])) ∧
      ((UploadProfileImage lib env c w).1.status = StatusInternalServerError →
        (UploadProfileImage lib env c w).2.users = w.users ∧
        (env.removeFails = false →
          trimLeadingSlash u.ImagePath ∈ (UploadProfileImage lib env c w).2.files →
          env.mkdirFails = false ∧ env.saveFileFails = false ∧
          trimLeadingSlash u.ImagePath = filepathJoin (filepathJoin "uploads" "users")
            (env.uuid ++ filepathExt file.Filename)))) :=
  ⟨fun id p hid hp hprev =>
      UploadProductImage_deletes_first env c w id p file hid hp hfile hok hprev,
    fun id u hid hu hprev =>
      UploadProfileImage_deletes_first lib env c w id u file hid hu hfile hok hprev⟩

theorem image_replace_deletes_previous_first_witness :
    ValidateFileType demoPng allowedTypes = none ∧
    (UploadProfileImage demoLib { demoEnv with saveFails := true }
        { userId := some 1, id := "", image := some demoPng } demoShop).1.status
      = StatusInternalServerError ∧
    (UploadProfileImage demoLib { demoEnv with saveFails := true }
        { userId := some 1, id := "", image := some demoPng } demoShop).2.users
      = demoShop.users :=
  have h := (image_replace_deletes_previous_first demoLib { demoEnv with saveFails := true }
    { userId := some 1, id := "", image := some demoPng } demoShop demoPng rfl
    (by decide)).2 1 demoAna rfl (by decide) (by decide)
  ⟨by decide, by decide, (h.2 (by decide)).1⟩

/-! ## What `UpdateProfile` writes -/

theorem UpdateProfile_saved_row (lib : Lib) (env : Env) (c : Context)
    (upd : UpdateProfileData) (w : World) (id : Nat) (user : User) (hwf : w.wf)
    (hid : c.userId = some id) (hu : (DB.FirstUser id w).1 = some user)
    (hfree : upd.Email = "" ∨ upd.Email = user.Email ∨ ∀ r ∈ w.users, r.Email ≠ upd.Email)
    (hsave : env.saveFails = false) :
    (UpdateProfile lib env c (.ok upd) w).1.status = StatusOK ∧
    (DB.FirstUser id (UpdateProfile lib env c (.ok upd) w).2).1 = some
      { ID := user.ID
        Name := if upd.Name ≠ "" then upd.Name else user.Name
        Email := if upd.Email ≠ "" then upd.Email else user.Email
        Password := if upd.Password ≠ "" then upd.Password else user.Password
        ImagePath := user.ImagePath
        CreatedAt := user.CreatedAt
        UpdatedAt := env.now } ∧
    (∃ earlier, (UpdateProfile lib env c (.ok upd) w).2.trace = earlier ++
      [.saveUser
        { ID := user.ID
          Name := if upd.Name ≠ "" then upd.Name else user.Name
          Email := if upd.Email ≠ "" then upd.Email else user.Email
          Password := if upd.Password ≠ "" then upd.Password else user.Password
          ImagePath := user.ImagePath
          CreatedAt := user.CreatedAt
          UpdatedAt := user.UpdatedAt }]) := by
  obtain ⟨hmem, huid⟩ := FirstUser_found id w user hu
  have hz : user.ID ≠ 0 := hwf.1 user hmem
  rw [UpdateProfile_reaches_save lib env c upd w id user hid hu hfree]
  obtain ⟨m, hm⟩ : ∃ m : User, m =
      { ID := user.ID
        Name := if upd.Name ≠ "" then upd.Name else user.Name
        Email := if upd.Email ≠ "" then upd.Email else user.Email
        Password := if upd.Password ≠ "" then upd.Password else user.Password
        ImagePath := user.ImagePath
        CreatedAt := user.CreatedAt
        UpdatedAt := user.UpdatedAt } := ⟨_, rfl⟩
  obtain ⟨W0, hW0⟩ : ∃ W0 : World, W0 =
      (if upd.Email ≠ "" ∧ upd.Email ≠ user.Email then
        (w.log .selectUsers).log .selectUsers else w.log .selectUsers) := ⟨_, rfl⟩
  have hW0u : W0.users = w.users := by
    rw [hW0]
    split <;> rfl
  rw [← hm, ← hW0]
  have hmid : m.ID = user.ID := by rw [hm]
  have hme : m.Email = if upd.Email ≠ "" then upd.Email else user.Email := by rw [hm]
  have huniq : ∀ r ∈ W0.users, r.ID ≠ m.ID → r.Email ≠ m.Email := by
    intro r hr hrid hre
    rw [hW0u] at hr
    rw [hme] at hre
    by_cases he : upd.Email = ""
    · simp only [he, ne_eq, not_true_eq_false, if_false] at hre
      exact hrid (by rw [email_owner_unique w hwf r user hr hmem hre, hmid])
    · simp only [he, ne_eq, not_false_eq_true, if_true] at hre
      rcases hfree with h | h | h
      · exact he h
      · rw [h] at hre
        exact hrid (by rw [email_owner_unique w hwf r user hr hmem hre, hmid])
      · exact h r hr hre
  rw [SaveUser_ok lib env m W0 (by rw [hmid]; exact hz) hsave
    ⟨user, by rw [hW0u]; exact hmem, hmid.symm⟩ huniq]
  refine ⟨rfl, ?_, ⟨W0.trace, rfl⟩⟩
  have := FirstUser_after_replace id W0
    { W0.log (.saveUser m) with
      users := W0.users.map (fun r => if r.ID = m.ID then { m with UpdatedAt := env.now } else r) }
    user { m with UpdatedAt := env.now } (by rw [hW0u]; exact hmem) huid
    (by rw [← huid]; exact hmid) (by simp only [hmid, huid])
  rw [this, hm]

/-- C8 fails on the code: user 1 (Ana, whose stored password is a digest)
sends an update carrying only the new password "newsecret".  Whatever bcrypt
is, the handler responds 200 and the row stored afterwards has the raw
string "newsecret" in its `Password` field: `BeforeUpdate` sees no change,
because `Save` compares the struct with itself, and hashes nothing. -/
theorem UpdateProfile_stores_raw_password (lib : Lib) :
    (UpdateProfile lib demoEnv { userId := some 1, id := "", image := none }
        (.ok { Name := "", Email := "", Password := "newsecret" }) demoShop).1.status
      = StatusOK ∧
    (DB.FirstUser 1
        (UpdateProfile lib demoEnv { userId := some 1, id := "", image := none }
          (.ok { Name := "", Email := "", Password := "newsecret" }) demoShop).2).1
      = some { demoAna with Password := "newsecret", UpdatedAt := demoEnv.now } := by
  have hwf : demoShop.wf := by unfold World.wf; decide
  have h := UpdateProfile_saved_row lib demoEnv { userId := some 1, id := "", image := none }
    { Name := "", Email := "", Password := "newsecret" } demoShop 1 demoAna hwf rfl
    (by decide) (Or.inl rfl) rfl
  refine ⟨h.1, ?_⟩
  rw [h.2.1]
  rfl

/-! ## Deleting records -/

theorem DeleteProduct_eq (env : Env) (c : Context) (w : World) (id : Nat) (p : Product)
    (hid : ParseUint c.id = some id) (hp : (DB.FirstProduct id w).1 = some p) :
    DeleteProduct env c w =
      match DB.DeleteProduct env p
          (if p.ImagePath ≠ "" then (DeleteFile env p.ImagePath (w.log .selectProducts)).2
            else w.log .selectProducts) with
      | (some _, w) => (errorJSON StatusInternalServerError "Failed to delete product", w)
      | (none, w) =>
        ({ status := StatusOK
           body := [("message", .str "Product deleted successfully")] }, w) := by
  simp only [DB.FirstProduct] at hp
  simp only [DeleteProduct, hid, DB.FirstProduct, hp]

theorem DeleteUser_eq (env : Env) (c : Context) (w : World) (id : Nat) (u : User)
    (hid : ParseUint c.id = some id) (hu : (DB.FirstUser id w).1 = some u) :
    DeleteUser env c w =
      match DB.DeleteUser env u
          (if u.ImagePath ≠ "" then (DeleteFile env u.ImagePath (w.log .selectUsers)).2
            else w.log .selectUsers) with
      | (some _, w) => (errorJSON StatusInternalServerError "Failed to delete user", w)
      | (none, w) =>
        ({ status := StatusOK, body := [("message", .str "User deleted successfully")] }, w) := by
  simp only [DeleteUser, hid, FirstUser_eq id w u hu]

theorem DB_DeleteProduct_spec (env : Env) (p : Product) (w : World) :
    (DB.DeleteProduct env p w).2.trace = w.trace ++ [.deleteProduct p] ∧
    (DB.DeleteProduct env p w).2.files = w.files ∧
    (DB.DeleteProduct env p w).2.users = w.users ∧
    (env.deleteFails = false → p.ID ≠ 0 →
      (DB.DeleteProduct env p w).1 = none ∧
      (DB.DeleteProduct env p w).2.products = w.products.filter (fun r => r.ID != p.ID)) ∧
    (env.deleteFails = true →
      (∃ e, (DB.DeleteProduct env p w).1 = some e) ∧
      (DB.DeleteProduct env p w).2.products = w.products) := by
  by_cases hz : p.ID = 0
  · simp [DB.DeleteProduct, hz, World.log]
  · cases hd : env.deleteFails with
    | true => simp [DB.DeleteProduct, hz, hd, World.log]
    | false => simp [DB.DeleteProduct, hz, hd, World.log]

theorem DB_DeleteUser_spec (env : Env) (u : User) (w : World) :
    (DB.DeleteUser env u w).2.trace = w.trace ++ [.deleteUser u] ∧
    (DB.DeleteUser env u w).2.files = w.files ∧
    (DB.DeleteUser env u w).2.products = w.products ∧
    (env.deleteFails = false → u.ID ≠ 0 →
      (DB.DeleteUser env u w).1 = none ∧
      (DB.DeleteUser env u w).2.users = w.users.filter (fun r => r.ID != u.ID)) ∧
    (env.deleteFails = true →
      (∃ e, (DB.DeleteUser env u w).1 = some e) ∧
      (DB.DeleteUser env u w).2.users = w.users) := by
  by_cases hz : u.ID = 0
  · simp [DB.DeleteUser, hz, World.log]
  · cases hd : env.deleteFails with
    | true => simp [DB.DeleteUser, hz, hd, World.log]
    | false => simp [DB.DeleteUser, hz, hd, World.log]

theorem DeleteProduct_record (env : Env) (c : Context) (w : World) (id : Nat) (p : Product)
    (hid : ParseUint c.id = some id) (hp : (DB.FirstProduct id w).1 = some p) :
    (DeleteProduct env c w).2.trace = w.trace ++ [.selectProducts] ++
        (if p.ImagePath ≠ "" then [.DeleteFile p.ImagePath] else []) ++ [.deleteProduct p] ∧
    (DeleteProduct env c w).2.files =
      (if p.ImagePath ≠ "" then
        (DeleteFile env p.ImagePath (w.log .selectProducts)).2.files else w.files) ∧
    (env.deleteFails = false → p.ID ≠ 0 →
      (DeleteProduct env c w).1.status = StatusOK ∧
      (DeleteProduct env c w).2.products = w.products.filter (fun r => r.ID != p.ID)) ∧
    (env.deleteFails = true →
      (DeleteProduct env c w).1.status = StatusInternalServerError ∧
      (DeleteProduct env c w).2.products = w.products) := by
  rw [DeleteProduct_eq env c w id p hid hp]
  obtain ⟨-, hdp, hdt⟩ := DeleteFile_frame env p.ImagePath (w.log .selectProducts)
  obtain ⟨W0, hW0⟩ : ∃ W0 : World, W0 =
      (if p.ImagePath ≠ "" then (DeleteFile env p.ImagePath (w.log .selectProducts)).2
        else w.log .selectProducts) := ⟨_, rfl⟩
  have h0p : W0.products = w.products := by
    rw [hW0]
    split
    · rw [hdp]; rfl
    · rfl
  have h0t : W0.trace = w.trace ++ [.selectProducts] ++
      (if p.ImagePath ≠ "" then [.DeleteFile p.ImagePath] else []) := by
    rw [hW0]
    split
    · rw [hdt]; rfl
    · simp [World.log]
  have h0f : W0.files = (if p.ImagePath ≠ "" then
      (DeleteFile env p.ImagePath (w.log .selectProducts)).2.files else w.files) := by
    rw [hW0]
    by_cases hi : p.ImagePath = ""
    · simp [hi, World.log]
    · rw [if_pos hi, if_pos hi]
  rw [← hW0]
  obtain ⟨hxt, hxf, -, hxok, hxerr⟩ := DB_DeleteProduct_spec env p W0
  rcases hD : DB.DeleteProduct env p W0 with ⟨res, W1⟩
  rw [hD] at hxt hxf hxok hxerr
  simp only at hxt hxf hxok hxerr
  have ht : W1.trace = w.trace ++ [.selectProducts] ++
      (if p.ImagePath ≠ "" then [.DeleteFile p.ImagePath] else []) ++ [.deleteProduct p] := by
    rw [hxt, h0t]
  have hf : W1.files = (if p.ImagePath ≠ "" then
      (DeleteFile env p.ImagePath (w.log .selectProducts)).2.files else w.files) := by
    rw [hxf, h0f]
  cases res with
  | some e =>
    refine ⟨ht, hf, ?_, ?_⟩
    · intro hd hz
      have := (hxok hd hz).1
      simp at this
    · intro hd
      exact ⟨rfl, by rw [(hxerr hd).2, h0p]⟩
  | none =>
    refine ⟨ht, hf, ?_, ?_⟩
    · intro hd hz
      exact ⟨rfl, by rw [(hxok hd hz).2, h0p]⟩
    · intro hd
      obtain ⟨e, he⟩ := (hxerr hd).1
      simp at he


theorem DeleteUser_record (env : Env) (c : Context) (w : World) (id : Nat) (u : User)
    (hid : ParseUint c.id = some id) (hu : (DB.FirstUser id w).1 = some u) :
    (DeleteUser env c w).2.trace = w.trace ++ [.selectUsers] ++
        (if u.ImagePath ≠ "" then [.DeleteFile u.ImagePath] else []) ++ [.deleteUser u] ∧
    (DeleteUser env c w).2.files =
      (if u.ImagePath ≠ "" then
        (DeleteFile env u.ImagePath (w.log .selectUsers)).2.files else w.files) ∧
    (env.deleteFails = false → u.ID ≠ 0 →
      (DeleteUser env c w).1.status = StatusOK ∧
      (DeleteUser env c w).2.users = w.users.filter (fun r => r.ID != u.ID)) ∧
    (env.deleteFails = true →
      (DeleteUser env c w).1.status = StatusInternalServerError ∧
      (DeleteUser env c w).2.users = w.users) := by
  rw [DeleteUser_eq env c w id u hid hu]
  obtain ⟨hdu, -, hdt⟩ := DeleteFile_frame env u.ImagePath (w.log .selectUsers)
  obtain ⟨W0, hW0⟩ : ∃ W0 : World, W0 =
      (if u.ImagePath ≠ "" then (DeleteFile env u.ImagePath (w.log .selectUsers)).2
        else w.log .selectUsers) := ⟨_, rfl⟩
  have h0u : W0.users = w.users := by
    rw [hW0]
    split
    · rw [hdu]; rfl
    · rfl
  have h0t : W0.trace = w.trace ++ [.selectUsers] ++
      (if u.ImagePath ≠ "" then [.DeleteFile u.ImagePath] else []) := by
    rw [hW0]
    split
    · rw [hdt]; rfl
    · simp [World.log]
  have h0f : W0.files = (if u.ImagePath ≠ "" then
      (DeleteFile env u.ImagePath (w.log .selectUsers)).2.files else w.files) := by
    rw [hW0]
    by_cases hi : u.ImagePath = ""
    · simp [hi, World.log]
    · rw [if_pos hi, if_pos hi]
  rw [← hW0]
  obtain ⟨hxt, hxf, -, hxok, hxerr⟩ := DB_DeleteUser_spec env u W0
  rcases hD : DB.DeleteUser env u W0 with ⟨res, W1⟩
  rw [hD] at hxt hxf hxok hxerr
  simp only at hxt hxf hxok hxerr
  have ht : W1.trace = w.trace ++ [.selectUsers] ++
      (if u.ImagePath ≠ "" then [.DeleteFile u.ImagePath] else []) ++ [.deleteUser u] := by
    rw [hxt, h0t]
  have hf : W1.files = (if u.ImagePath ≠ "" then
      (DeleteFile env u.ImagePath (w.log .selectUsers)).2.files else w.files) := by
    rw [hxf, h0f]
  cases res with
  | some e =>
    refine ⟨ht, hf, ?_, ?_⟩
    · intro hd hz
      have := (hxok hd hz).1
      simp at this
    · intro hd
      exact ⟨rfl, by rw [(hxerr hd).2, h0u]⟩
  | none =>
    refine ⟨ht, hf, ?_, ?_⟩
    · intro hd hz
      exact ⟨rfl, by rw [(hxok hd hz).2, h0u]⟩
    · intro hd
      obtain ⟨e, he⟩ := (hxerr hd).1
      simp at he

/-- C9 as stated fails: deleting the record of `demoLamp` fails in the
database, the handler responds 500 and the record is still stored, yet its
image file has been removed from storage. -/
theorem delete_failure_still_removes_image :
    demoLamp ∈ demoShop.products ∧
    "uploads/products/lamp.png" ∈ demoShop.files ∧
    (DeleteProduct { demoEnv with deleteFails := true } { demoContext with id := "2" }
        demoShop).1.status = StatusInternalServerError ∧
    demoLamp ∈ (DeleteProduct { demoEnv with deleteFails := true }
        { demoContext with id := "2" } demoShop).2.products ∧
    "uploads/products/lamp.png" ∉ (DeleteProduct { demoEnv with deleteFails := true }
        { demoContext with id := "2" } demoShop).2.files := by
  decide

/-- C9, amended: for an existing product or user record, `DeleteProduct` /
`DeleteUser` first calls `DeleteFile` on a non-empty `ImagePath`, dropping
its error, and then deletes the record.  With an empty `ImagePath` no file
operation is attempted and the files are untouched; with a non-empty one
whose removal does not fail, the file at that path (less its leading slash)
is not in storage afterwards.  If the record deletion does not fail the
record is removed and the response is 200, whether or not removing the file
failed.  If the record deletion fails the response is 500 and the table is
unchanged, the image file having been removed all the same.  When no record
has the id the response is 404 after the lookup alone. -/
theorem delete_image_then_record (env : Env) (c : Context) (w : World) (id : Nat)
    (hid : ParseUint c.id = some id) :
    (∀ p, (DB.FirstProduct id w).1 = some p →
      (DeleteProduct env c w).2.trace = w.trace ++ [.selectProducts] ++
          (if p.ImagePath ≠ "" then [.DeleteFile p.ImagePath] else []) ++
          [.deleteProduct p] ∧
      (p.ImagePath = "" → (DeleteProduct env c w).2.files = w.files) ∧
      (p.ImagePath ≠ "" → env.removeFails = false →
        trimLeadingSlash p.ImagePath ∉ (DeleteProduct env c w).2.files) ∧
      (env.deleteFails = false → p.ID ≠ 0 →
        (DeleteProduct env c w).1.status = StatusOK ∧
        (DeleteProduct env c w).2.products = w.products.filter (fun r => r.ID != p.ID)) ∧
      (env.deleteFails = true →
        (DeleteProduct env c w).1.status = StatusInternalServerError ∧
        (DeleteProduct env c w).2.products = w.products)) ∧
    ((DB.FirstProduct id w).1 = none →
      DeleteProduct env c w
        = (errorJSON StatusNotFound "Product not found", w.log .selectProducts)) ∧
    (∀ u, (DB.FirstUser id w).1 = some u →
      (DeleteUser env c w).2.trace = w.trace ++ [.selectUsers] ++
          (if u.ImagePath ≠ "" then [.DeleteFile u.ImagePath] else []) ++ [.deleteUser u] ∧
      (u.ImagePath = "" → (DeleteUser env c w).2.files = w.files) ∧
      (u.ImagePath ≠ "" → env.removeFails = false →
        trimLeadingSlash u.ImagePath ∉ (DeleteUser env c w).2.files) ∧
      (env.deleteFails = false → u.ID ≠ 0 →
        (DeleteUser env c w).1.status = StatusOK ∧
        (DeleteUser env c w).2.users = w.users.filter (fun r => r.ID != u.ID)) ∧
      (env.deleteFails = true →
        (DeleteUser env c w).1.status = StatusInternalServerError ∧
        (DeleteUser env c w).2.users = w.users)) ∧
    ((DB.FirstUser id w).1 = none →
      DeleteUser env c w = (errorJSON StatusNotFound "User not found", w.log .selectUsers)) := by
  refine ⟨?_, ?_, ?_, ?_⟩
  · intro p hp
    obtain ⟨h1, h2, h3, h4⟩ := DeleteProduct_record env c w id p hid hp
    refine ⟨h1, ?_, ?_, h3, h4⟩
    · intro hi
      rw [h2]
      simp [hi]
    · intro hi hr
      rw [h2, if_pos hi]
      exact DeleteFile_removes env p.ImagePath (w.log .selectProducts) hr
  · intro hn
    simp only [DB.FirstProduct] at hn
    simp only [DeleteProduct, hid, DB.FirstProduct, hn]
  · intro u hu
    obtain ⟨h1, h2, h3, h4⟩ := DeleteUser_record env c w id u hid hu
    refine ⟨h1, ?_, ?_, h3, h4⟩
    · intro hi
      rw [h2]
      simp [hi]
    · intro hi hr
      rw [h2, if_pos hi]
      exact DeleteFile_removes env u.ImagePath (w.log .selectUsers) hr
  · intro hn
    simp only [DB.FirstUser] at hn
    simp only [DeleteUser, hid, DB.FirstUser, hn]

theorem delete_image_then_record_witness :
    ParseUint "1" = some 1 ∧
    (DB.FirstUser 1 demoShop).1 = some demoAna ∧
    trimLeadingSlash demoAna.ImagePath ∉
      (DeleteUser { demoEnv with deleteFails := true } { demoContext with id := "1" }
        demoShop).2.files ∧
    (DeleteUser { demoEnv with deleteFails := true } { demoContext with id := "1" }
        demoShop).1.status = StatusInternalServerError ∧
    (DeleteUser { demoEnv with deleteFails := true } { demoContext with id := "1" }
        demoShop).2.users = demoShop.users :=
  have h := (delete_image_then_record { demoEnv with deleteFails := true }
    { demoContext with id := "1" } demoShop 1 (by decide)).2.2.1 demoAna (by decide)
  ⟨by decide, by decide, h.2.2.1 (by decide) rfl, (h.2.2.2.2 rfl).1, (h.2.2.2.2 rfl).2⟩

/-! ## The route table -/

theorem SetupRoutes_table (r : Engine) :
    (SetupRoutes r).routes = r.routes ++
      [ ⟨"POST", "/auth/register", r.Handlers ++ [.Register]⟩,
        ⟨"POST", "/auth/login", r.Handlers ++ [.Login]⟩,
        ⟨"GET", "/users/me", r.Handlers ++ [.AuthMiddleware, .GetProfile]⟩,
        ⟨"PUT", "/users/me", r.Handlers ++ [.AuthMiddleware, .UpdateProfile]⟩,
        ⟨"POST", "/users/me/image", r.Handlers ++ [.AuthMiddleware, .UploadProfileImage]⟩,
        ⟨"GET", "/admin/users", r.Handlers ++ [.AuthMiddleware, .GetAllUsers]⟩,
        ⟨"GET", "/admin/users/:id", r.Handlers ++ [.AuthMiddleware, .GetUserByID]⟩,
        ⟨"DELETE", "/admin/users/:id", r.Handlers ++ [.AuthMiddleware, .DeleteUser]⟩,
        ⟨"GET", "/products", r.Handlers ++ [.GetAllProducts]⟩,
        ⟨"GET", "/products/:id", r.Handlers ++ [.GetProductByID]⟩,
        ⟨"POST", "/products", r.Handlers ++ [.AuthMiddleware, .CreateProduct]⟩,
        ⟨"PUT", "/products/:id", r.Handlers ++ [.AuthMiddleware, .UpdateProduct]⟩,
        ⟨"DELETE", "/products/:id", r.Handlers ++ [.AuthMiddleware, .DeleteProduct]⟩,
        ⟨"POST", "/products/:id/image",
          r.Handlers ++ [.AuthMiddleware, .UploadProductImage]⟩ ] := by
  have p1 : joinPaths "/" "/auth/register" = "/auth/register" := by decide
  have p2 : joinPaths "/" "/auth/login" = "/auth/login" := by decide
  have p3 : joinPaths "/" "/users" = "/users" := by decide
  have p4 : joinPaths "/users" "/me" = "/users/me" := by decide
  have p5 : joinPaths "/users" "/me/image" = "/users/me/image" := by decide
  have p6 : joinPaths "/" "/admin" = "/admin" := by decide
  have p7 : joinPaths "/admin" "/users" = "/admin/users" := by decide
  have p8 : joinPaths "/admin" "/users/:id" = "/admin/users/:id" := by decide
  have p9 : joinPaths "/" "/products" = "/products" := by decide
  have p10 : joinPaths "/" "/products/:id" = "/products/:id" := by decide
  have p11 : joinPaths "/products" "" = "/products" := by decide
  have p12 : joinPaths "/products" "/:id" = "/products/:id" := by decide
  have p13 : joinPaths "/products" "/:id/image" = "/products/:id/image" := by decide
  simp only [SetupRoutes, Engine.handle, Engine.Group, RouterGroup.Use, RouterGroup.handle,
    p1, p2, p3, p4, p5, p6, p7, p8, p9, p10, p11, p12, p13, List.append_assoc,
    List.singleton_append, List.cons_append, List.nil_append]


/-- C10: in the route table built by `SetupRoutes`, every route other than
POST /auth/register, POST /auth/login, GET /products and GET /products/:id
has a handler chain that ends with `AuthMiddleware` followed by the handler
(after the engine's own middleware); these are all /users/me routes, all
/admin/users routes and POST/PUT/DELETE on /products including
POST /products/:id/image, each of which is registered.  `GetProfile`,
`UpdateProfile` and `UploadProfileImage` respond 401 and leave the world as
it was, with no database or file operation performed, when the context
carries no userId. -/
theorem protected_routes_run_AuthMiddleware :
    (∀ (r : Engine) (rt : Route), rt ∈ (SetupRoutes r).routes.drop r.routes.length →
      (rt.method, rt.path) ∉ [("POST", "/auth/register"), ("POST", "/auth/login"),
        ("GET", "/products"), ("GET", "/products/:id")] →
      ∃ h, rt.handlers = r.Handlers ++ [.AuthMiddleware, h] ∧ h ≠ .AuthMiddleware) ∧
    (∀ (r : Engine), ∀ mp ∈ [("GET", "/users/me"), ("PUT", "/users/me"),
        ("POST", "/users/me/image"), ("GET", "/admin/users"), ("GET", "/admin/users/:id"),
        ("DELETE", "/admin/users/:id"), ("POST", "/products"), ("PUT", "/products/:id"),
        ("DELETE", "/products/:id"), ("POST", "/products/:id/image")],
      ∃ rt ∈ (SetupRoutes r).routes.drop r.routes.length, (rt.method, rt.path) = mp) ∧
    (∀ (c : Context) (w : World), c.userId = none →
      GetProfile c w = (errorJSON StatusUnauthorized "Unauthorized", w)) ∧
    (∀ (lib : Lib) (env : Env) (c : Context) (body : Except String UpdateProfileData)
      (w : World), c.userId = none →
      UpdateProfile lib env c body w = (errorJSON StatusUnauthorized "Unauthorized", w)) ∧
    (∀ (lib : Lib) (env : Env) (c : Context) (w : World), c.userId = none →
      UploadProfileImage lib env c w = (errorJSON StatusUnauthorized "Unauthorized", w)) := by
  refine ⟨?_, ?_, ?_, ?_, ?_⟩
  · intro r rt hrt hpub
    rw [SetupRoutes_table, List.drop_left] at hrt
    simp only [List.mem_cons, List.mem_singleton, List.not_mem_nil, or_false] at hrt
    rcases hrt with h | h | h | h | h | h | h | h | h | h | h | h | h | h <;> subst h
    · exact absurd (by simp) hpub
    · exact absurd (by simp) hpub
    · exact ⟨_, rfl, by decide⟩
    · exact ⟨_, rfl, by decide⟩
    · exact ⟨_, rfl, by decide⟩
    · exact ⟨_, rfl, by decide⟩
    · exact ⟨_, rfl, by decide⟩
    · exact ⟨_, rfl, by decide⟩
    · exact absurd (by simp) hpub
    · exact absurd (by simp) hpub
    · exact ⟨_, rfl, by decide⟩
    · exact ⟨_, rfl, by decide⟩
    · exact ⟨_, rfl, by decide⟩
    · exact ⟨_, rfl, by decide⟩
  · intro r mp hmp
    rw [SetupRoutes_table, List.drop_left]
    simp only [List.mem_cons, List.mem_singleton, List.not_mem_nil, or_false] at hmp
    rcases hmp with h | h | h | h | h | h | h | h | h | h <;> subst h <;> simp
  · intro c w h
    simp only [GetProfile, h]
  · intro lib env c body w h
    simp only [UpdateProfile, h]
  · intro lib env c w h
    simp only [UploadProfileImage, h]

theorem protected_routes_run_AuthMiddleware_witness :
    demoContext.userId = none ∧
    UploadProfileImage demoLib demoEnv demoContext demoShop
      = (errorJSON StatusUnauthorized "Unauthorized", demoShop) ∧
    (⟨"DELETE", "/admin/users/:id", [.other "cors", .AuthMiddleware, .DeleteUser]⟩ : Route) ∈
      (SetupRoutes ⟨[.other "cors"], []⟩).routes :=
  ⟨rfl, protected_routes_run_AuthMiddleware.2.2.2.2 demoLib demoEnv demoContext demoShop rfl,
    by decide⟩

/-! ## Creating products -/

theorem validationErrors_none_iff (errs : List String) :
    validationErrors errs = none ↔ errs = [] := by
  cases errs <;> simp [validationErrors]

theorem Product_binding_none_iff (p : Product) :
    p.binding = none ↔ p.Name ≠ "" ∧ p.Description ≠ "" ∧ 0 < p.Price ∧ 0 < p.Quantity := by
  unfold Product.binding
  rw [validationErrors_none_iff]
  simp only [List.append_eq_nil]
  constructor
  · rintro ⟨⟨⟨h1, h2⟩, h3⟩, h4⟩
    have n1 : p.Name ≠ "" := by
      intro h
      simp [h] at h1
    have n2 : p.Description ≠ "" := by
      intro h
      simp [h] at h2
    have n3 : ¬ p.Price = 0 := by
      intro h
      simp [h] at h3
    have n4 : ¬ p.Price < 0 := by
      intro h
      simp [n3, h] at h3
    have n5 : ¬ p.Quantity = 0 := by
      intro h
      simp [h] at h4
    have n6 : ¬ p.Quantity < 0 := by
      intro h
      simp [n5, h] at h4
    exact ⟨n1, n2, lt_of_le_of_ne (not_lt.1 n4) (Ne.symm n3),
      lt_of_le_of_ne (not_lt.1 n6) (Ne.symm n5)⟩
  · rintro ⟨n1, n2, n3, n4⟩
    have m3 : ¬ p.Price = 0 := ne_of_gt n3
    have m4 : ¬ p.Price < 0 := not_lt.2 (le_of_lt n3)
    have m5 : ¬ p.Quantity = 0 := ne_of_gt n4
    have m6 : ¬ p.Quantity < 0 := not_lt.2 (le_of_lt n4)
    simp [n1, n2, m3, m4, m5, m6]

theorem CreateProduct_invalid (env : Env) (p : Product) (w : World)
    (h : ¬ (p.Name ≠ "" ∧ p.Description ≠ "" ∧ 0 < p.Price ∧ 0 < p.Quantity)) :
    ∃ msg, CreateProduct env (.ok p) w = (errorJSON StatusBadRequest msg, w) := by
  cases hb : p.binding with
  | none => exact absurd ((Product_binding_none_iff p).1 hb) h
  | some msg => exact ⟨msg, by simp only [CreateProduct, ShouldBindProduct, hb]⟩

theorem CreateProduct_ok (env : Env) (p : Product) (w : World)
    (hv : p.Name ≠ "" ∧ p.Description ≠ "" ∧ 0 < p.Price ∧ 0 < p.Quantity)
    (hinsert : env.createFails = false)
    (hkey : ∀ r ∈ w.products, r.ID ≠ (if p.ID = 0 then w.productSeq + 1 else p.ID)) :
    CreateProduct env (.ok p) w =
      ({ status := StatusCreated
         body := [("product", .productResponse (Product.ToResponse
           { p with
             ID := if p.ID = 0 then w.productSeq + 1 else p.ID
             CreatedAt := if p.CreatedAt = 0 then env.now else p.CreatedAt
             UpdatedAt := if p.UpdatedAt = 0 then env.now else p.UpdatedAt }))] },
       { w with
         products := w.products ++
           [{ p with
              ID := if p.ID = 0 then w.productSeq + 1 else p.ID
              CreatedAt := if p.CreatedAt = 0 then env.now else p.CreatedAt
              UpdatedAt := if p.UpdatedAt = 0 then env.now else p.UpdatedAt }]
         productSeq := if p.ID = 0 then w.productSeq + 1 else w.productSeq
         trace := w.trace ++ [.createProduct p] }) := by
  have hb := (Product_binding_none_iff p).2 hv
  have hk : (w.products.any
      fun r => r.ID == (if p.ID = 0 then w.productSeq + 1 else p.ID)) = false := by
    rw [List.any_eq_false]
    intro r hr
    simpa using hkey r hr
  by_cases hz : p.ID = 0
  · simp only [hz, if_true] at hk
    simp [CreateProduct, ShouldBindProduct, hb, DB.CreateProduct, Product.BeforeCreate,
      DB.insertProduct, hinsert, World.log, hz, hk]
  · simp only [hz, if_false] at hk
    simp [CreateProduct, ShouldBindProduct, hb, DB.CreateProduct, Product.BeforeCreate,
      DB.insertProduct, hinsert, World.log, hz, hk]


/-- C11 fails on the code: the payload `demoFreeSample` has a non-empty name
and description, price 0 and quantity 10, which the claim (and the `min=0`
of the binding tags) admits, yet `CreateProduct` answers 400 with the
validator's complaint about the `required` tag and inserts nothing; likewise
`demoSoldOut`, with price 25 and quantity 0. -/
theorem CreateProduct_rejects_zero_values :
    demoFreeSample.Name ≠ "" ∧ demoFreeSample.Description ≠ "" ∧
    0 ≤ demoFreeSample.Price ∧ 0 ≤ demoFreeSample.Quantity ∧
    CreateProduct demoEnv (.ok demoFreeSample) demoShop =
      (errorJSON StatusBadRequest
        "Key: 'Product.Price' Error:Field validation for 'Price' failed on the 'required' tag",
        demoShop) ∧
    demoSoldOut.Name ≠ "" ∧ demoSoldOut.Description ≠ "" ∧
    0 ≤ demoSoldOut.Price ∧ 0 ≤ demoSoldOut.Quantity ∧
    CreateProduct demoEnv (.ok demoSoldOut) demoShop =
      (errorJSON StatusBadRequest
        "Key: 'Product.Quantity' Error:Field validation for 'Quantity' failed on the 'required' tag",
        demoShop) := by
  refine ⟨by decide, by decide, by decide, by decide, ?_, by decide, by decide, by decide,
    by decide, ?_⟩
  · have h : demoFreeSample.binding
        = some "Key: 'Product.Price' Error:Field validation for 'Price' failed on the 'required' tag" := by
      decide
    simp only [CreateProduct, ShouldBindProduct, h]
  · have h : demoSoldOut.binding
        = some
          "Key: 'Product.Quantity' Error:Field validation for 'Quantity' failed on the 'required' tag" := by
      decide
    simp only [CreateProduct, ShouldBindProduct, h]

/-- What `CreateProduct` does with every payload: it responds 201 only for a
non-empty name, a non-empty description, a price > 0 and a quantity > 0, and
for such a payload, the INSERT not failing, it persists the product and
responds 201 with it.  For every other payload, and for a body that does not
decode, it responds 400 and leaves the database as it was. -/
theorem CreateProduct_accepts_only_positive (env : Env) (p : Product) (w : World) :
    ((CreateProduct env (.ok p) w).1.status = StatusCreated →
      p.Name ≠ "" ∧ p.Description ≠ "" ∧ 0 < p.Price ∧ 0 < p.Quantity) ∧
    (p.Name ≠ "" ∧ p.Description ≠ "" ∧ 0 < p.Price ∧ 0 < p.Quantity →
      env.createFails = false →
      (∀ r ∈ w.products, r.ID ≠ (if p.ID = 0 then w.productSeq + 1 else p.ID)) →
      ∃ created : Product,
        created.Name = p.Name ∧ created.Description = p.Description ∧
        created.Price = p.Price ∧ created.Quantity = p.Quantity ∧
        (CreateProduct env (.ok p) w).1 =
          { status := StatusCreated
            body := [("product", .productResponse created.ToResponse)] } ∧
        (CreateProduct env (.ok p) w).2.products = w.products ++ [created]) ∧
    (¬ (p.Name ≠ "" ∧ p.Description ≠ "" ∧ 0 < p.Price ∧ 0 < p.Quantity) →
      (CreateProduct env (.ok p) w).1.status = StatusBadRequest ∧
      (CreateProduct env (.ok p) w).2 = w) ∧
    (∀ err, CreateProduct env (.error err) w = (errorJSON StatusBadRequest err, w)) := by
  refine ⟨?_, ?_, ?_, ?_⟩
  · intro h
    by_contra hv
    obtain ⟨msg, hm⟩ := CreateProduct_invalid env p w hv
    rw [hm] at h
    simp only [errorJSON] at h
    exact absurd h (by decide)
  · intro hv hinsert hkey
    rw [CreateProduct_ok env p w hv hinsert hkey]
    exact ⟨⟨if p.ID = 0 then w.productSeq + 1 else p.ID, p.Name, p.Description, p.Price,
      p.Quantity, p.ImagePath, if p.CreatedAt = 0 then env.now else p.CreatedAt,
      if p.UpdatedAt = 0 then env.now else p.UpdatedAt⟩, rfl, rfl, rfl, rfl, rfl, rfl⟩
  · intro hv
    obtain ⟨msg, hm⟩ := CreateProduct_invalid env p w hv
    rw [hm]
    exact ⟨rfl, rfl⟩
  · intro err
    simp only [CreateProduct, ShouldBindProduct]

/-- C12 fails on the code: every product stored in `demoShop` has a
non-negative price and quantity; the update of product 1 carrying only the
price -5 is answered 200 and the stored row then has price -5, and the
update carrying only the quantity -2 likewise stores quantity -2.
`UpdateProduct` checks nothing of what `models.Product` declares with
`min=0` and `CreateProduct` enforces. -/
theorem UpdateProduct_stores_negative_values :
    (∀ p ∈ demoShop.products, 0 ≤ p.Price ∧ 0 ≤ p.Quantity) ∧
    (UpdateProduct demoEnv demoContext
        (.ok { Name := "", Description := "", Price := -5, Quantity := 0 }) demoShop).1.status
      = StatusOK ∧
    (DB.FirstProduct 1
        (UpdateProduct demoEnv demoContext
          (.ok { Name := "", Description := "", Price := -5, Quantity := 0 }) demoShop).2).1
      = some { demoProduct with Price := -5, UpdatedAt := demoEnv.now } ∧
    ¬ (∀ p ∈ (UpdateProduct demoEnv demoContext
          (.ok { Name := "", Description := "", Price := -5, Quantity := 0 })
          demoShop).2.products, 0 ≤ p.Price ∧ 0 ≤ p.Quantity) ∧
    (DB.FirstProduct 1
        (UpdateProduct demoEnv demoContext
          (.ok { Name := "", Description := "", Price := 0, Quantity := -2 }) demoShop).2).1
      = some { demoProduct with Quantity := -2, UpdatedAt := demoEnv.now } := by
  decide

/-! ## Paths -/

end Backend
